import Mathlib

/-!
Shallow embedding of the fmdtools conversational model builder
(`src/fmdtools/cli/nlp_wizard.py` and `src/fmdtools/cli/core.py`).

Modelling conventions, fixed once for the whole file:

* Text is handled as `List Char`; `String` appears only at the API edges.
* Python floats are modelled as `Rat`.  Every numeric value the analyzer
  manipulates is an exact decimal (parsed digit strings, fixed defaults,
  a scale by 1000), so `Rat` arithmetic agrees with the source.
* Python dicts are association lists with the source's semantics:
  assignment overwrites in place when the key exists and appends
  otherwise, so key order is insertion order, exactly as in CPython.
* Python sets are modelled as duplicate-free lists in first-insertion
  order.  CPython leaves set iteration order unspecified, so theorems
  about sets are stated through membership / `Finset` equality.
* Each `re` pattern of the source is hand-compiled to a scanner over
  `List Char` reproducing the leftmost, non-overlapping `finditer`
  semantics (greedy and lazy quantifiers, ordered alternation,
  IGNORECASE, word boundaries) for exactly the constructs the pattern
  uses.
-/

namespace Fmd

/-- The apostrophe character (used by Python's dict repr). -/
def quoteChar : Char := Char.ofNat 39

/-- Opening brace of Python's dict repr. -/
def lbraceChar : Char := Char.ofNat 123

/-- Closing brace of Python's dict repr. -/
def rbraceChar : Char := Char.ofNat 125

/-- Python regex `\w`: alphanumeric or underscore. -/
def isWordC (c : Char) : Bool := c.isAlphanum || c = '_'

/-- Python regex `\s`. -/
def isSpaceC (c : Char) : Bool := c.isWhitespace

/-- Python regex `\d`. -/
def isDigitC (c : Char) : Bool := c.isDigit

/-- Letters, the class `[A-Za-z]` (IGNORECASE turns `[A-Z]` into this). -/
def isAlphaC (c : Char) : Bool := c.isAlpha

/-- Lowercase a character list (Python `str.lower()` for ASCII text). -/
def lowerL (s : List Char) : List Char := s.map Char.toLower

/-- `takeWhile`/`dropWhile` split. -/
def spanP (p : Char → Bool) (s : List Char) : List Char × List Char :=
  (s.takeWhile p, s.dropWhile p)

/-- Case-insensitive literal prefix: if `lit` (given lowercase) starts the
lowercased text, return the rest of the text. -/
def ciLit : List Char → List Char → Option (List Char)
  | [], s => some s
  | _, [] => none
  | l :: ls, c :: cs => if c.toLower = l then ciLit ls cs else none

/-- First alternative of `alts` (ordered, as regex alternation) that is a
case-insensitive prefix; returns the matched literal and the rest. -/
def ciAlt (alts : List (List Char)) (s : List Char) : Option (List Char × List Char) :=
  match alts with
  | [] => none
  | a :: rest =>
    match ciLit a s with
    | some r => some (a, r)
    | none => ciAlt rest s

/-- Bool substring test (`needle in hay` for Python strings). -/
def containsSub (needle : List Char) : List Char → Bool
  | [] => needle.isEmpty
  | c :: t => needle.isPrefixOf (c :: t) || containsSub needle t

/-- `a ++ needle ++ b = hay` for some `a`, `b`: the Prop of `containsSub`. -/
def SubSeg (needle hay : List Char) : Prop :=
  ∃ a b, a ++ needle ++ b = hay

theorem isPrefixOf_iff_exists :
    ∀ (n l : List Char), n.isPrefixOf l = true ↔ ∃ b, n ++ b = l := by
  intro n
  induction n with
  | nil => intro l; simp [List.isPrefixOf]
  | cons a as ih =>
    intro l
    cases l with
    | nil => simp [List.isPrefixOf]
    | cons b bs =>
      simp only [List.isPrefixOf, Bool.and_eq_true, beq_iff_eq, ih]
      constructor
      · rintro ⟨rfl, t, rfl⟩; exact ⟨t, rfl⟩
      · rintro ⟨t, ht⟩
        injection ht with h1 h2
        exact ⟨h1, t, h2⟩

theorem containsSub_iff (needle hay : List Char) :
    containsSub needle hay = true ↔ SubSeg needle hay := by
  induction hay with
  | nil =>
    simp only [containsSub, List.isEmpty_iff, SubSeg]
    constructor
    · rintro rfl; exact ⟨[], [], rfl⟩
    · rintro ⟨a, b, h⟩
      rcases List.append_eq_nil.mp h with ⟨h1, h2⟩
      exact (List.append_eq_nil.mp h1).2
  | cons c t ih =>
    simp only [containsSub, Bool.or_eq_true, isPrefixOf_iff_exists, ih, SubSeg]
    constructor
    · rintro (⟨b, hb⟩ | ⟨a, b, hab⟩)
      · exact ⟨[], b, hb⟩
      · exact ⟨c :: a, b, by simp [← hab]⟩
    · rintro ⟨a, b, hab⟩
      cases a with
      | nil => exact Or.inl ⟨b, by simpa using hab⟩
      | cons x xs =>
        injection hab with h1 h2
        exact Or.inr ⟨xs, b, h2⟩

/-- Python `str.strip()`. -/
def stripL (s : List Char) : List Char :=
  ((s.dropWhile isSpaceC).reverse.dropWhile isSpaceC).reverse

/-- Python `str.replace(' ', '_')`. -/
def spaceToUnderscore (s : List Char) : List Char :=
  s.map fun c => if c = ' ' then '_' else c

/-- Python `str.split()` (split on whitespace runs, no empty parts). -/
def splitWs (s : List Char) : List (List Char) :=
  (s.splitOnP (fun c => isSpaceC c)).filter (· ≠ [])

/-- Python `str.split(',')`. -/
def splitComma (s : List Char) : List (List Char) :=
  s.splitOnP (fun c => c = ',')

/-- Digits to a natural number. -/
def digitsToNat (ds : List Char) : Nat :=
  ds.foldl (fun a c => a * 10 + (c.toNat - 48)) 0

/-- Python `float(s)` restricted to the shapes the regexes produce:
`digits` or `digits.digits`. -/
def parseDecimal (s : List Char) : Rat :=
  let ip := s.takeWhile isDigitC
  let rest := s.dropWhile isDigitC
  match rest with
  | '.' :: frac =>
    let fd := frac.takeWhile isDigitC
    (digitsToNat ip : Rat) + (digitsToNat fd : Rat) / ((10 : Rat) ^ fd.length)
  | _ => (digitsToNat ip : Rat)

/-! ### Python dict and set models -/

/-- A Python dict with `String` keys: `d[k] = v` overwrites in place or
appends, preserving CPython's insertion order. -/
def dictSet (d : List (String × Rat)) (k : String) (v : Rat) : List (String × Rat) :=
  if d.any (fun kv => kv.1 = k) then
    d.map fun kv => if kv.1 = k then (k, v) else kv
  else d ++ [(k, v)]

/-- Dict lookup. -/
def dictGet : List (String × Rat) → String → Option Rat
  | [], _ => none
  | kv :: t, k => if kv.1 = k then some kv.2 else dictGet t k

/-- `k in d` for a Python dict. -/
def dictMem (d : List (String × Rat)) (k : String) : Bool :=
  d.any fun kv => kv.1 = k

/-- `d.update(e)`: apply `e`'s entries in order (CPython semantics). -/
def dictUpdate (d e : List (String × Rat)) : List (String × Rat) :=
  e.foldl (fun acc kv => dictSet acc kv.1 kv.2) d

/-- Insert into a modelled Python set (deterministic first-insertion order;
only membership is meaningful, see the header). -/
def setAdd (s : List String) (x : String) : List String :=
  if x ∈ s then s else s ++ [x]

/-- `list(set(xs))` keeping first-insertion order. -/
def dedupFirst (xs : List String) : List String :=
  xs.foldl setAdd []

/-! ### `finditer` scaffold

`scanAllF f fuel prev s` scans left to right.  At each position it calls
the pattern's matcher `f` with the previous character (for `\b`) and the
remaining text; a matcher returns the captured groups and the rest of the
text after the whole match.  On a match the scan resumes after it
(non-overlapping), otherwise one character further. -/

def scanAllF (f : Option Char → List Char → Option (α × List Char)) :
    Nat → Option Char → List Char → List α
  | 0, _, _ => []
  | _, _, [] => []
  | fuel + 1, prev, c :: rest =>
    match f prev (c :: rest) with
    | some (a, rest') =>
      let n := (c :: rest).length - rest'.length
      if n = 0 then a :: scanAllF f fuel (some c) rest
      else a :: scanAllF f fuel (some ((c :: rest).getD (n - 1) c)) rest'
    | none => scanAllF f fuel (some c) rest

/-- All matches of a pattern, in scan order (`re.finditer`). -/
def scanAll (f : Option Char → List Char → Option (α × List Char)) (s : List Char) :
    List α :=
  scanAllF f s.length none s

/-- First match (`re.search`). -/
def searchFirst (f : Option Char → List Char → Option (α × List Char)) (s : List Char) :
    Option α :=
  (scanAll f s).head?

/-- `\b` before the current position: start of text or previous char not `\w`. -/
def boundaryOk (prev : Option Char) : Bool :=
  match prev with
  | none => true
  | some c => !isWordC c

/-- `\b` after a match: end of text or next char not `\w`. -/
def boundaryAfter (s : List Char) : Bool :=
  match s with
  | [] => true
  | c :: _ => !isWordC c

/-! ### State extraction (nlp_wizard.py lines 153–247)

Groups are `List (Option String)` of the pattern's fixed capture-group
count, exactly like `match.groups()`. -/

/-- Optional `(?:\.\d+)?` after the integer digits. -/
def matchFrac (s : List Char) : List Char × List Char :=
  match s with
  | '.' :: t =>
    let (ds, t') := spanP isDigitC t
    if ds = [] then ([], s) else ('.' :: ds, t')
  | _ => ([], s)

/-- Pattern 1: `\b(\w+)\s*:\s*(\d+(?:\.\d+)?)\s*(\w+)?`. -/
def matchStateExplicit (prev : Option Char) (s : List Char) :
    Option (List (Option String) × List Char) :=
  if !boundaryOk prev then none else
  let (w, r1) := spanP isWordC s
  if w = [] then none else
  let (_, r2) := spanP isSpaceC r1
  match r2 with
  | ':' :: r3 =>
    let (_, r4) := spanP isSpaceC r3
    let (d1, r5) := spanP isDigitC r4
    if d1 = [] then none else
    let (fr, r6) := matchFrac r5
    let (_, r7) := spanP isSpaceC r6
    let (u, r8) := spanP isWordC r7
    if u = [] then some ([some (String.mk w), some (String.mk (d1 ++ fr)), none], r7)
    else some ([some (String.mk w), some (String.mk (d1 ++ fr)), some (String.mk u)], r8)
  | _ => none

/-- Pattern 2: `\b(\w+)\s+(?:range\s+)?(\d+(?:\.\d+)?)\s*[-to]\s*(\d+(?:\.\d+)?)\s*(\w+)?`. -/
def matchStateRange (prev : Option Char) (s : List Char) :
    Option (List (Option String) × List Char) :=
  if !boundaryOk prev then none else
  let (w, r1) := spanP isWordC s
  if w = [] then none else
  let (sp, r2) := spanP isSpaceC r1
  if sp = [] then none else
  -- `(?:range\s+)?`: consumed only when the literal and at least one space follow
  let r2' :=
    match ciLit ['r','a','n','g','e'] r2 with
    | some t =>
      let (sp2, t') := spanP isSpaceC t
      if sp2 = [] then r2 else t'
    | none => r2
  let (d1, r3) := spanP isDigitC r2'
  if d1 = [] then none else
  let (fr1, r4) := matchFrac r3
  let (_, r5) := spanP isSpaceC r4
  match r5 with
  | c :: r6 =>
    if c.toLower = '-' || c.toLower = 't' || c.toLower = 'o' then
      let (_, r7) := spanP isSpaceC r6
      let (d2, r8) := spanP isDigitC r7
      if d2 = [] then none else
      let (fr2, r9) := matchFrac r8
      let (_, r10) := spanP isSpaceC r9
      let (u, r11) := spanP isWordC r10
      if u = [] then
        some ([some (String.mk w), some (String.mk (d1 ++ fr1)),
               some (String.mk (d2 ++ fr2)), none], r10)
      else
        some ([some (String.mk w), some (String.mk (d1 ++ fr1)),
               some (String.mk (d2 ++ fr2)), some (String.mk u)], r11)
    else none
  | [] => none

/-- The bare physical-quantity alternation of pattern 3, in the source's
order; `flow\s*rate` is handled separately. -/
def bareStateKws : List (List Char) :=
  [['t','e','m','p','e','r','a','t','u','r','e'], ['t','e','m','p'],
   ['p','r','e','s','s','u','r','e'], ['s','p','e','e','d'], ['r','p','m'],
   ['v','o','l','t','a','g','e'], ['c','u','r','r','e','n','t'],
   ['f','l','o','w','r','a','t','e'],  -- placeholder slot, see matchStateBare
   ['p','o','w','e','r'], ['e','f','f','i','c','i','e','n','c','y'],
   ['d','i','s','p','l','a','c','e','m','e','n','t'],
   ['c','a','p','a','c','i','t','y'], ['t','o','r','q','u','e'],
   ['v','i','b','r','a','t','i','o','n'], ['a','c','c','u','r','a','c','y'],
   ['n','o','i','s','e'], ['p','o','s','i','t','i','o','n'],
   ['c','h','a','r','g','e'], ['f','u','e','l']]

/-- `flow\s*rate` as an alternative: length consumed from `s`, if it matches. -/
def flowRateAlt (s : List Char) : Option Nat :=
  match ciLit ['f','l','o','w'] s with
  | none => none
  | some r1 =>
    let (sp, r2) := spanP isSpaceC r1
    match ciLit ['r','a','t','e'] r2 with
    | none => none
    | some _ => some (4 + sp.length + 4)

/-- One alternative of pattern 3 at the current position: consumed length. -/
def bareAltLen (kw : List Char) (s : List Char) : Option Nat :=
  if kw = ['f','l','o','w','r','a','t','e'] then flowRateAlt s
  else
    match ciLit kw s with
    | some _ => some kw.length
    | none => none

/-- Try pattern-3 alternatives in order, requiring the trailing `\b`. -/
def bareTry : List (List Char) → List Char → Option Nat
  | [], _ => none
  | kw :: rest, s =>
    match bareAltLen kw s with
    | some n => if boundaryAfter (s.drop n) then some n else bareTry rest s
    | none => bareTry rest s

/-- Pattern 3: `\b(temperature|temp|pressure|speed|rpm|voltage|current|`
`flow\s*rate|power|efficiency|displacement|capacity|torque|vibration|`
`accuracy|noise|position|charge|fuel)\b`. -/
def matchStateBare (prev : Option Char) (s : List Char) :
    Option (List (Option String) × List Char) :=
  if !boundaryOk prev then none else
  match bareTry bareStateKws s with
  | some n => some ([some (String.mk (s.take n))], s.drop n)
  | none => none

/-- Pattern 4: `\b(\d+(?:\.\d+)?)\s*([A-Z]{1,4}|hp|bhp|kw|psi|bar|gpm|lpm|cfm|hz|khz|mhz)\b`.
With IGNORECASE the first alternative subsumes the literals: the unit
matches iff the letter run after the digits has length 1–4 and is
followed by a non-word character (see the analysis in the match shape). -/
def matchStateTech (prev : Option Char) (s : List Char) :
    Option (List (Option String) × List Char) :=
  if !boundaryOk prev then none else
  let (d1, r1) := spanP isDigitC s
  if d1 = [] then none else
  let (fr, r2) := matchFrac r1
  let (_, r3) := spanP isSpaceC r2
  let (u, r4) := spanP isAlphaC r3
  if u.length < 1 || 4 < u.length then none
  else if !boundaryAfter r4 then none
  else some ([some (String.mk (d1 ++ fr)), some (String.mk u)], r4)

/-- The qualifier literals of pattern 5, in the source's order. -/
def qualifierKws : List (List Char) :=
  [['m','a','x'], ['m','i','n'], ['r','a','t','e','d'],
   ['o','p','e','r','a','t','i','n','g'], ['n','o','m','i','n','a','l']]

/-- Pattern 5: `\b(?:max|min|rated|operating|nominal)\s+(\w+)`. -/
def matchStateQualified (prev : Option Char) (s : List Char) :
    Option (List (Option String) × List Char) :=
  if !boundaryOk prev then none else
  (qualifierKws.firstM fun kw =>
    match ciLit kw s with
    | none => none
    | some r1 =>
      let (sp, r2) := spanP isSpaceC r1
      if sp = [] then none else
      let (w, r3) := spanP isWordC r2
      if w = [] then none else
      some ([some (String.mk w)], r3))

/-- Python `s.replace('.','').isdigit()` (the numeric test of line 173). -/
def isNumericPy (s : String) : Bool :=
  let t := s.data.filter (· ≠ '.')
  t ≠ [] && t.all isDigitC

/-- Python `str.lower()` on a `String`. -/
def pyLower (s : String) : String := String.mk (lowerL s.data)

/-- `groups[0].lower().replace(' ', '_')`. -/
def stateNameOf (s : String) : String :=
  String.mk (spaceToUnderscore (lowerL s.data))

/-- The canonical renaming of the explicit branch (lines 179–189), applied
to the already lowercased state name: unit substring checks in source
order, and the litre/displacement rescaling. -/
def explicitRename (name : String) (value : Rat) (unit : String) : String × Rat :=
  if containsSub ['h','p'] unit.data || containsSub ['b','h','p'] unit.data then
    ("power_output", value)
  else if containsSub ['p','s','i'] unit.data || containsSub ['b','a','r'] unit.data then
    ("pressure", value)
  else if containsSub ['g','p','m'] unit.data || containsSub ['l','p','m'] unit.data
      || containsSub ['c','f','m'] unit.data then
    ("flow_rate", value)
  else if containsSub ['l'] unit.data
      && containsSub ['d','i','s','p','l','a','c','e','m','e','n','t'] name.data then
    ("displacement", value * 1000)
  else (name, value)

/-- The defaults table of the bare-mention branch (lines 222–240). -/
def stateDefaults : List (String × Rat) :=
  [("temperature", 90), ("temp", 90), ("pressure", 100), ("rpm", 1800),
   ("speed", 1800), ("voltage", 12), ("current", 5), ("flow_rate", 10),
   ("power", 200), ("power_output", 200), ("efficiency", (85 : Rat) / 100),
   ("displacement", 3500), ("capacity", 100), ("torque", 300),
   ("vibration", (1 : Rat) / 10), ("accuracy", (95 : Rat) / 100),
   ("noise", (1 : Rat) / 100), ("position", 50), ("charge", 80), ("fuel", 50)]

/-- The per-match dispatch of the state loop (lines 170–243): branches are
selected by the shape of `groups`, exactly as in the source. -/
def applyStateMatch (states : List (String × Rat)) (g : List (Option String)) :
    List (String × Rat) :=
  if 2 ≤ g.length ∧ (g.getD 1 none).isSome ∧ isNumericPy ((g.getD 1 none).getD "") then
    -- explicit-value branch
    let name := stateNameOf ((g.getD 0 none).getD "")
    let value := parseDecimal ((g.getD 1 none).getD "").data
    let unit := if 2 < g.length ∧ (g.getD 2 none).isSome
                then pyLower ((g.getD 2 none).getD "") else ""
    let (k, v) := explicitRename name value unit
    dictSet states k v
  else if 3 ≤ g.length ∧ (g.getD 1 none).isSome ∧ (g.getD 2 none).isSome then
    -- range branch (unreachable from the patterns: a range match has a
    -- numeric groups[1] and is caught by the explicit branch above)
    let name := stateNameOf ((g.getD 0 none).getD "")
    let mn := parseDecimal ((g.getD 1 none).getD "").data
    let mx := parseDecimal ((g.getD 2 none).getD "").data
    let s1 := dictSet states name ((mn + mx) / 2)
    let s2 := dictSet s1 (name ++ "_min") mn
    dictSet s2 (name ++ "_max") mx
  else if 2 ≤ g.length ∧ isNumericPy ((g.getD 0 none).getD "") then
    -- technical-spec branch
    let value := parseDecimal ((g.getD 0 none).getD "").data
    let unit := pyLower ((g.getD 1 none).getD "")
    if unit = "hp" ∨ unit = "bhp" ∨ unit = "kw" then
      dictSet states "power_output" value
    else if unit = "psi" ∨ unit = "bar" then
      dictSet states "pressure" value
    else if unit = "gpm" ∨ unit = "lpm" ∨ unit = "cfm" then
      dictSet states "flow_rate" value
    else if unit = "l" ∧ !dictMem states "displacement" then
      dictSet states "displacement" (value * 1000)
    else states
  else
    -- bare-mention branch
    let name := stateNameOf ((g.getD 0 none).getD "")
    match stateDefaults.find? (fun kv => kv.1 = name) with
    | some kv => dictSet states name kv.2
    | none => states

/-- All state-pattern matches of the text, in the source's pattern order. -/
def stateMatches (t : List Char) : List (List (Option String)) :=
  scanAll matchStateExplicit t ++ scanAll matchStateRange t ++
  scanAll matchStateBare t ++ scanAll matchStateTech t ++
  scanAll matchStateQualified t

/-- The state-extraction phase of `analyze_input`. -/
def extractStates (t : List Char) : List (String × Rat) :=
  (stateMatches t).foldl applyStateMatch []

/-! ### Fault extraction (nlp_wizard.py lines 249–291)

Each match carries `(group0, group1?)`; the per-pattern branch of the
source's loop (`if pattern.startswith("faults?") / elif "," in group(0) /
else`) is reproduced by `handleFaultSplit` and `handleFaultMatch`. -/

/-- The verb alternation of `can\s+(explode|combust|fail|break|malfunction|overheat|leak)`. -/
def faultVerbs : List (List Char) :=
  ["explode".data, "combust".data, "fail".data, "break".data,
   "malfunction".data, "overheat".data, "leak".data]

/-- Pattern F1 (no word boundaries, prefix alternation). -/
def matchFaultVerb (_ : Option Char) (s : List Char) :
    Option ((String × Option String) × List Char) :=
  match ciLit ['c','a','n'] s with
  | none => none
  | some r1 =>
    let (sp, r2) := spanP isSpaceC r1
    if sp = [] then none else
    match ciAlt faultVerbs r2 with
    | none => none
    | some (kw, r3) =>
      let n := 3 + sp.length + kw.length
      some ((String.mk (s.take n), some (String.mk (r2.take kw.length))), r3)

/-- Pattern F2: `faults?\s*:\s*([a-zA-Z][a-zA-Z0-9\s,]*)`.  The group's
class has no underscore, so an `_` ends the capture. -/
def matchFaultList (_ : Option Char) (s : List Char) :
    Option ((String × Option String) × List Char) :=
  match ciLit ['f','a','u','l','t'] s with
  | none => none
  | some r1 =>
    let r2 := match r1 with
      | c :: t => if c.toLower = 's' then t else r1
      | [] => r1
    let (_, r3) := spanP isSpaceC r2
    match r3 with
    | ':' :: r4 =>
      let (_, r5) := spanP isSpaceC r4
      match r5 with
      | c :: r6 =>
        if isAlphaC c then
          let (run, r7) := spanP (fun d => d.isAlphanum || isSpaceC d || d = ',') r6
          let g1 := c :: run
          let n := s.length - r7.length
          some ((String.mk (s.take n), some (String.mk g1)), r7)
        else none
      | [] => none
    | _ => none

/-- The class `[a-z_]` of pattern F3 (IGNORECASE). -/
def faultWordC (c : Char) : Bool := isAlphaC c || c = '_'

/-- The `(?:,[a-z_]+)+` tail of pattern F3: greedy repetition. -/
def commaChain : Nat → List Char → List Char × List Char
  | 0, s => ([], s)
  | fuel + 1, s =>
    match s with
    | ',' :: t =>
      let (w, r) := spanP faultWordC t
      if w = [] then ([], s)
      else
        let (ext, r') := commaChain fuel r
        (',' :: (w ++ ext), r')
    | _ => ([], s)

/-- Pattern F3: `([a-z_]+(?:,[a-z_]+)+)` (comma-separated fault lists). -/
def matchCommaList (_ : Option Char) (s : List Char) :
    Option ((String × Option String) × List Char) :=
  let (w, r1) := spanP faultWordC s
  if w = [] then none else
  let (ext, r2) := commaChain r1.length r1
  if ext = [] then none else
  let full := w ++ ext
  some ((String.mk full, some (String.mk full)), r2)

/-- The noun vocabulary of pattern F4, in the source's order. -/
def faultVocab : List (List Char) :=
  ["explosion".data, "combustion".data, "failure".data, "breakdown".data,
   "malfunction".data, "overheating".data, "leak".data, "dropout".data,
   "cavitation".data, "seal_leak".data, "motor_failure".data]

/-- Ordered literal alternation requiring the trailing `\b`. -/
def litTryB : List (List Char) → List Char → Option Nat
  | [], _ => none
  | kw :: rest, s =>
    match ciLit kw s with
    | some r => if boundaryAfter r then some kw.length else litTryB rest s
    | none => litTryB rest s

/-- Pattern F4: `\b(explosion|…|motor_failure)\b`. -/
def matchFaultVocab (prev : Option Char) (s : List Char) :
    Option ((String × Option String) × List Char) :=
  if !boundaryOk prev then none else
  match litTryB faultVocab s with
  | some n => some ((String.mk (s.take n), some (String.mk (s.take n))), s.drop n)
  | none => none

/-- The else-branch canonicalization chain (lines 275–287), applied to the
already lowercased fault word. -/
def canonFault (s : String) : String :=
  let f := pyLower s
  if f = "explode" ∨ f = "explosion" then "explosion"
  else if f = "combust" ∨ f = "combustion" then "combustion"
  else if f = "fail" ∨ f = "failure" ∨ f = "breakdown" then "mechanical_failure"
  else if f = "overheat" ∨ f = "overheating" then "overheating"
  else if f = "leak" then "leak"
  else String.mk (spaceToUnderscore f.data)

/-- Split on commas, strip, drop empties, lowercase and underscore
(the `faults:`-list branch and the comma-list branch). -/
def handleFaultSplit (fs : List String) (g : String) : List String :=
  (splitComma g.data).foldl
    (fun acc part =>
      let p := stripL part
      if p = [] then acc
      else setAdd acc (String.mk (spaceToUnderscore (lowerL p))))
    fs

/-- The `elif "," in match.group(0) / else` dispatch for patterns F1, F3, F4. -/
def handleFaultMatch (fs : List String) (g0 : String) (g1 : Option String) : List String :=
  if containsSub [','] g0.data then handleFaultSplit fs g0
  else setAdd fs (canonFault (g1.getD g0))

/-- The fault-extraction phase of `analyze_input`, patterns in source order. -/
def extractFaults (t : List Char) : List String :=
  let s1 := (scanAll matchFaultVerb t).foldl
    (fun a g => handleFaultMatch a g.1 g.2) []
  let s2 := (scanAll matchFaultList t).foldl
    (fun a (g : String × Option String) => handleFaultSplit a (g.2.getD "")) s1
  let s3 := (scanAll matchCommaList t).foldl
    (fun a g => handleFaultMatch a g.1 g.2) s2
  (scanAll matchFaultVocab t).foldl (fun a g => handleFaultMatch a g.1 g.2) s3

/-! ### Component extraction (nlp_wizard.py lines 121–151) -/

/-- Vocabulary of component pattern 1, in the source's order. -/
def componentNouns : List (List Char) :=
  ["engine".data, "motor".data, "pump".data, "valve".data, "sensor".data,
   "controller".data, "battery".data, "tank".data, "compressor".data,
   "fan".data, "alternator".data, "radiator".data]

/-- Pattern CP1: `\b(engine|motor|…|radiator)\b`. -/
def matchComp1 (prev : Option Char) (s : List Char) : Option (String × List Char) :=
  if !boundaryOk prev then none else
  match litTryB componentNouns s with
  | some n => some (String.mk (s.take n), s.drop n)
  | none => none

/-- First alternation of CP2: `AC|air\s+conditioning|cooling|heating`;
returns the consumed length. -/
def comp2First (s : List Char) : Option Nat :=
  match ciLit ['a','c'] s with
  | some _ => some 2
  | none =>
    match ciLit ['a','i','r'] s with
    | some r1 =>
      let (sp, r2) := spanP isSpaceC r1
      if sp = [] then compandHeat s else
      match ciLit "conditioning".data r2 with
      | some _ => some (3 + sp.length + 12)
      | none => compandHeat s
    | none => compandHeat s
where
  compandHeat (s : List Char) : Option Nat :=
    match ciLit "cooling".data s with
    | some _ => some 7
    | none =>
      match ciLit "heating".data s with
      | some _ => some 7
      | none => none

/-- Pattern CP2: `\b(AC|air\s+conditioning|cooling|heating)\s+(system|unit|compressor)`. -/
def matchComp2 (prev : Option Char) (s : List Char) : Option (String × List Char) :=
  if !boundaryOk prev then none else
  match comp2First s with
  | none => none
  | some n1 =>
    let r1 := s.drop n1
    let (sp, r2) := spanP isSpaceC r1
    if sp = [] then none else
    match ciAlt ["system".data, "unit".data, "compressor".data] r2 with
    | some (kw, r3) =>
      some (String.mk (s.take (n1 + sp.length + kw.length)), r3)
    | none => none

/-- First alternation of CP3: `V6|V8|4\s*cylinder|6\s*cylinder|8\s*cylinder`. -/
def comp3First (s : List Char) : Option Nat :=
  match ciLit ['v','6'] s with
  | some _ => some 2
  | none =>
    match ciLit ['v','8'] s with
    | some _ => some 2
    | none =>
      match s with
      | c :: t =>
        if c = '4' ∨ c = '6' ∨ c = '8' then
          let (sp, r) := spanP isSpaceC t
          match ciLit "cylinder".data r with
          | some _ => some (1 + sp.length + 8)
          | none => none
        else none
      | [] => none

/-- Pattern CP3: `\b(V6|V8|4\s*cylinder|…)\s+(engine|motor)`. -/
def matchComp3 (prev : Option Char) (s : List Char) : Option (String × List Char) :=
  if !boundaryOk prev then none else
  match comp3First s with
  | none => none
  | some n1 =>
    let r1 := s.drop n1
    let (sp, r2) := spanP isSpaceC r1
    if sp = [] then none else
    match ciAlt ["engine".data, "motor".data] r2 with
    | some (kw, r3) =>
      some (String.mk (s.take (n1 + sp.length + kw.length)), r3)
    | none => none

/-- Python `str.title()` for ASCII: uppercase a letter after a non-letter,
lowercase a letter after a letter. -/
def pyTitle (s : List Char) : List Char :=
  ((s.foldl (fun (acc : List Char × Bool) c =>
      if c.isAlpha then ((if acc.2 then c.toLower else c.toUpper) :: acc.1, true)
      else (c :: acc.1, false)) ([], false)).1).reverse

/-- core.py `sanitize_class_name`.  Its raw-string class `[^0-9a-zA-Z\\s]`
keeps alphanumerics and the backslash (the doubled backslash makes `s`
redundant), so spaces are removed here, and `.replace(' ', '')` is a
no-op. -/
def sanitize_class_name (name : String) : String :=
  let clean := name.data.filter (fun c => c.isAlphanum || c = '\\')
  let cls := (pyTitle clean).filter (fun c => c ≠ ' ')
  match cls with
  | [] => "DefaultClass"
  | c :: _ => if c.isDigit then String.mk ('_' :: cls) else String.mk cls

/-- The normalization chain of lines 132–147, folded over the matches. -/
def addComponent (comps : List String) (matched : String) : List String :=
  let comp := String.mk (stripL matched.data)
  let low := lowerL comp.data
  if containsSub "engine".data low || containsSub "cylinder".data low then
    setAdd comps "Engine"
  else if containsSub "ac".data low || containsSub "air conditioning".data low then
    setAdd comps "AcSystem"
  else if containsSub "battery".data low then setAdd comps "Battery"
  else if containsSub "pump".data low then setAdd comps "Pump"
  else if containsSub "compressor".data low then setAdd comps "Compressor"
  else
    let clean := sanitize_class_name comp
    if clean ≠ "" then setAdd comps clean else comps

/-- The component-extraction phase of `analyze_input`. -/
def extractComponents (t : List Char) : List String :=
  (scanAll matchComp1 t ++ scanAll matchComp2 t ++ scanAll matchComp3 t).foldl
    addComponent []

/-! ### System-name extraction (nlp_wizard.py lines 94–119) -/

/-- The class `[a-zA-Z0-9\s]` of the name patterns. -/
def nameClassC (c : Char) : Bool := c.isAlphanum || isSpaceC c

/-- Greedy `\s*` with backtracking: try dropping all leading spaces first,
then fewer, matching the regex engine's order. -/
def greedyStar (attempt : Nat → Option α) : Nat → Option α
  | 0 => attempt 0
  | k + 1 =>
    match attempt (k + 1) with
    | some a => some a
    | none => greedyStar attempt k

/-- `\s*` followed by `f`, with backtracking over how many spaces `\s*` takes. -/
def starSpacesThen (f : List Char → Option α) (r : List Char) : Option α :=
  greedyStar (fun k => f (r.drop k)) (r.takeWhile isSpaceC).length

/-- `(?:a|an|the)?` with the regex's ordered backtracking (a, an, the, skip). -/
def articleThen (f : List Char → Option α) (r : List Char) : Option α :=
  let tryA := fun (art : List Char) =>
    match ciLit art r with
    | some t => f t
    | none => none
  (tryA ['a']) <|> (tryA ['a','n']) <|> (tryA ['t','h','e']) <|> f r

/-- A lazy `+?` over `nameClassC` characters: grow the capture one
character at a time, testing the continuation at each length. -/
def lazyClassThen (cont : List Char → Option β) :
    Nat → List Char → List Char → Option (List Char × β)
  | 0, _, _ => none
  | fuel + 1, acc, s =>
    match s with
    | [] => none
    | c :: rest =>
      if nameClassC c then
        let acc' := acc ++ [c]
        match cont rest with
        | some b => some (acc', b)
        | none => lazyClassThen cont fuel acc' rest
      else none

/-- `\s+` then an ordered keyword alternation; returns the matched keyword
text and the rest. -/
def kwCont (kws : List (List Char)) (s : List Char) : Option (String × List Char) :=
  let (sp, r) := spanP isSpaceC s
  if sp = [] then none else
  match ciAlt kws r with
  | some (kw, r') => some (String.mk (r.take kw.length), r')
  | none => none

/-- Keyword alternation of name patterns 1 and 2. -/
def nameKws12 : List (List Char) :=
  ["system".data, "model".data, "ac".data, "engine".data, "pump".data,
   "motor".data, "valve".data, "sensor".data]

/-- Keyword alternation of name pattern 3 (AC first). -/
def nameKws3 : List (List Char) :=
  ["ac".data, "engine".data, "system".data, "model".data, "pump".data,
   "motor".data, "valve".data, "sensor".data]

/-- Keyword alternation of name pattern 4 (no `model`). -/
def nameKws4 : List (List Char) :=
  ["ac".data, "engine".data, "system".data, "pump".data, "motor".data,
   "valve".data, "sensor".data]

/-- Keyword alternation of name pattern 6 (captured as group 2). -/
def nameKws6 : List (List Char) :=
  ["pump".data, "motor".data, "engine".data, "valve".data, "sensor".data,
   "compressor".data, "fan".data, "turbine".data]

/-- Name patterns 1 and 2:
`(?:model|build)\s+(?:a|an|the)?\s*([a-zA-Z0-9\s]+?)\s+(?:system|model|AC|…)`
and the same with `(?:for|of)`. -/
def matchName12 (lits : List (List Char)) (_ : Option Char) (s : List Char) :
    Option ((String × Option String) × List Char) :=
  match ciAlt lits s with
  | none => none
  | some (_, r1) =>
    let (sp, r2) := spanP isSpaceC r1
    if sp = [] then none else
    (articleThen (starSpacesThen fun t =>
        (lazyClassThen (kwCont nameKws12) t.length [] t).map
          fun (g, kw) => ((String.mk g, (none : Option String)), kw.2)) r2)

def matchN1 : Option Char → List Char → Option ((String × Option String) × List Char) :=
  matchName12 ["model".data, "build".data]

def matchN2 : Option Char → List Char → Option ((String × Option String) × List Char) :=
  matchName12 ["for".data, "of".data]

/-- Snapshots of a greedy `(word(?:\s+word)*)` chain, shortest first:
`(capture so far, rest)` for each number of words. -/
def wordChainSnaps (wordP : List Char → Option (List Char × List Char)) :
    Nat → List Char → List Char → List (List Char × List Char)
  | 0, g, r => [(g, r)]
  | fuel + 1, g, r =>
    (g, r) ::
      (let (sp, r1) := spanP isSpaceC r
       if sp = [] then []
       else
         match wordP r1 with
         | some (w, r2) =>
           if w = [] then [] else wordChainSnaps wordP fuel (g ++ sp ++ w) r2
         | none => [])

/-- A `\w+` word. -/
def wordW (s : List Char) : Option (List Char × List Char) :=
  let (w, r) := spanP isWordC s
  if w = [] then none else some (w, r)

/-- A `[A-Z][a-zA-Z0-9]*` word (IGNORECASE: any letter then alphanumerics). -/
def wordN4 (s : List Char) : Option (List Char × List Char) :=
  match s with
  | c :: rest =>
    if isAlphaC c then
      let (w, r) := spanP (fun d => d.isAlphanum) rest
      some (c :: w, r)
    else none
  | [] => none

/-- A `[a-zA-Z]+` word. -/
def wordAlpha (s : List Char) : Option (List Char × List Char) :=
  let (w, r) := spanP isAlphaC s
  if w = [] then none else some (w, r)

/-- Greedy multi-word capture followed by `\s+` and a keyword alternation:
longest word chain first. -/
def chainThenKw (wordP : List Char → Option (List Char × List Char))
    (kws : List (List Char)) (s : List Char) :
    Option ((List Char × String) × List Char) :=
  match wordP s with
  | none => none
  | some (w0, r0) =>
    ((wordChainSnaps wordP r0.length w0 r0).reverse.firstM fun gr =>
      match kwCont kws gr.2 with
      | some (kw, rest) => some ((gr.1, kw), rest)
      | none => none)

/-- Name pattern 3: `(\w+(?:\s+\w+)*)\s+(?:AC|engine|system|model|pump|motor|valve|sensor)`. -/
def matchN3 (_ : Option Char) (s : List Char) :
    Option ((String × Option String) × List Char) :=
  (chainThenKw wordW nameKws3 s).map fun x =>
    ((String.mk x.1.1, none), x.2)

/-- Name pattern 4:
`(?:^|\s)([A-Z][a-zA-Z0-9]*(?:\s+[A-Z][a-zA-Z0-9]*)*)\s+(?:AC|engine|system|pump|motor|valve|sensor)`. -/
def matchN4 (prev : Option Char) (s : List Char) :
    Option ((String × Option String) × List Char) :=
  let core := fun (t : List Char) =>
    (chainThenKw wordN4 nameKws4 t).map fun x =>
      ((String.mk x.1.1, (none : Option String)), x.2)
  let viaSpace :=
    match s with
    | c :: rest => if isSpaceC c then core rest else none
    | [] => none
  match prev with
  | none => core s <|> viaSpace
  | some _ => viaSpace

/-- Tail of name pattern 5: `(?:a|an|the)?\s*([a-zA-Z0-9\s]+)` (greedy group 2). -/
def n5Tail (r : List Char) : Option (String × List Char) :=
  articleThen
    (starSpacesThen fun t =>
      let (g2, rest) := spanP nameClassC t
      if g2 = [] then none else some (String.mk g2, rest)) r

/-- Continuation of name pattern 5 after the lazy group:
`\s+(?:for|in)\s+` then the tail. -/
def n5Cont (r : List Char) : Option (String × List Char) :=
  let (sp, r1) := spanP isSpaceC r
  if sp = [] then none else
  match ciAlt ["for".data, "in".data] r1 with
  | none => none
  | some (_, r2) => n5Tail r2

/-- Name pattern 5: `([a-zA-Z0-9\s]+?)\s+(?:for|in)\s+(?:a|an|the)?\s*([a-zA-Z0-9\s]+)`. -/
def matchN5 (_ : Option Char) (s : List Char) :
    Option ((String × Option String) × List Char) :=
  (lazyClassThen n5Cont s.length [] s).map fun (g1, g2r) =>
    ((String.mk g1, some g2r.1), g2r.2)

/-- Name pattern 6:
`([a-zA-Z]+(?:\s+[a-zA-Z]+)*)\s+(pump|motor|engine|valve|sensor|compressor|fan|turbine)`. -/
def matchN6 (_ : Option Char) (s : List Char) :
    Option ((String × Option String) × List Char) :=
  (chainThenKw wordAlpha nameKws6 s).map fun x =>
    ((String.mk x.1.1, some x.1.2), x.2)

/-- The stop words of the acceptance test (line 116), substring-matched. -/
def nameStopWords : List String := ["want", "need", "can", "will", "have"]

/-- Candidate acceptance: at most five words and no stop-word substring. -/
def acceptCandidate (c : String) : Bool :=
  (splitWs c.data).length ≤ 5 &&
  !(nameStopWords.any fun w => containsSub w.data (lowerL c.data))

/-- Candidate text: two-group patterns combine both groups (line 112). -/
def candidateOf (g : String × Option String) : String :=
  match g.2 with
  | some g2 => String.mk (stripL g.1.data) ++ " " ++ String.mk (stripL g2.data)
  | none => String.mk (stripL g.1.data)

/-- The ordered name patterns. -/
def namePatterns :
    List (Option Char → List Char → Option ((String × Option String) × List Char)) :=
  [matchN1, matchN2, matchN3, matchN4, matchN5, matchN6]

/-- The name-extraction loop (lines 106–119): first pattern whose first
match yields an accepted candidate; a rejected candidate moves on to the
next pattern. -/
def extractName (t : List Char) : Option String :=
  namePatterns.foldl
    (fun acc p =>
      match acc with
      | some _ => acc
      | none =>
        match searchFirst p t with
        | some g =>
          let c := candidateOf g
          if acceptCandidate c then some c else none
        | none => none)
    none

/-! ### `analyze_input` (nlp_wizard.py lines 76–293) -/

/-- One turn's analysis record.  `flows` is declared but never filled by
the source; `intent` is the literal Python string; `confidence` is the
advisory sum of increments (exact here, floating point in the source). -/
structure Analysis where
  system_name : Option String := none
  components : List String := []
  states : List (String × Rat) := []
  faults : List String := []
  flows : List String := []
  intent : String := "describe"
  confidence : Rat := 0
deriving Repr, DecidableEq

/-- Generation trigger words (line 90). -/
def generationTriggers : List String :=
  ["generate", "create", "build files", "make files"]

/-- `any(word in text.lower() for word in [...])`. -/
def hasGenerationTrigger (t : List Char) : Bool :=
  generationTriggers.any fun w => containsSub w.data (lowerL t)

/-- `IntelligentBuilder.analyze_input`. -/
def analyze_input (text : String) : Analysis :=
  let t := stripL text.data
  if hasGenerationTrigger t then { intent := "generate" }
  else
    let name := extractName t
    let comps := extractComponents t
    let states := extractStates t
    let faults := extractFaults t
    { system_name := name
      components := comps
      states := states
      faults := faults
      intent := "describe"
      confidence :=
        (if name.isSome then (3 : Rat) / 10 else 0) +
        (if comps ≠ [] then (4 : Rat) / 10 else 0) +
        (if states ≠ [] then (2 : Rat) / 10 else 0) +
        (if faults ≠ [] then (1 : Rat) / 10 else 0) }

/-! ### KnowledgeBase and `update_extracted_info` (lines 23–35, 295–346) -/

/-- Per-component knowledge: recorded states and faults. -/
structure CompInfo where
  states : List (String × Rat) := []
  faults : List String := []
deriving Repr, DecidableEq

/-- The session knowledge (`extracted_info`): the `states`/`faults`/
`flows`/`connections`/`description` top-level entries of the source dict
are never written by the analyzed code paths and are omitted. -/
structure KB where
  system_name : String := ""
  components : List (String × CompInfo) := []
deriving Repr, DecidableEq

/-- Does the component dict contain this name? -/
def kbHas (comps : List (String × CompInfo)) (name : String) : Bool :=
  comps.any fun nc => nc.1 = name

/-- Set one state on every component satisfying `p`. -/
def setStateOn (p : String → Bool) (comps : List (String × CompInfo))
    (k : String) (v : Rat) : List (String × CompInfo) :=
  comps.map fun nc =>
    if p nc.1 then (nc.1, { nc.2 with states := dictSet nc.2.states k v }) else nc

/-- The state-affinity rules of lines 316–327 (multi-component case). -/
def distributeState (comps : List (String × CompInfo)) (k : String) (v : Rat) :
    List (String × CompInfo) :=
  if (k = "temperature" ∨ k = "rpm") ∧ kbHas comps "Engine" then
    setStateOn (fun n => n = "Engine") comps k v
  else if k = "pressure" ∧ comps.any (fun nc => containsSub "Ac".data nc.1.data) then
    setStateOn (fun n => containsSub "Ac".data n.data) comps k v
  else
    setStateOn (fun _ => true) comps k v

/-- Engine-typed faults (line 337). -/
def engineFaults : List String := ["explosion", "combustion", "mechanical_failure"]

/-- Append one fault to every component satisfying `p`. -/
def addFaultOn (p : String → Bool) (comps : List (String × CompInfo)) (f : String) :
    List (String × CompInfo) :=
  comps.map fun nc =>
    if p nc.1 then (nc.1, { nc.2 with faults := nc.2.faults ++ [f] }) else nc

/-- The fault-affinity rules of lines 336–342 (multi-component case). -/
def distributeFault (comps : List (String × CompInfo)) (f : String) :
    List (String × CompInfo) :=
  if f ∈ engineFaults ∧ kbHas comps "Engine" then
    addFaultOn (fun n => n = "Engine") comps f
  else
    addFaultOn (fun _ => true) comps f

/-- The component-registration loop (lines 300–306): new names get empty
containers. -/
def registerComponents (comps : List (String × CompInfo)) (l : List String) :
    List (String × CompInfo) :=
  l.foldl
    (fun cs c =>
      if kbHas cs c then cs
      else cs ++ [(c, ({ states := [], faults := [] } : CompInfo))])
    comps

/-- The state-distribution block (lines 308–327). -/
def distributeStates (comps : List (String × CompInfo))
    (states : List (String × Rat)) : List (String × CompInfo) :=
  if states = [] then comps
  else if comps.length = 1 then
    comps.map fun nc => (nc.1, { nc.2 with states := dictUpdate nc.2.states states })
  else states.foldl (fun cs kv => distributeState cs kv.1 kv.2) comps

/-- The fault-distribution block (lines 329–342). -/
def distributeFaults (comps : List (String × CompInfo)) (faults : List String) :
    List (String × CompInfo) :=
  if faults = [] then comps
  else if comps.length = 1 then
    comps.map fun nc => (nc.1, { nc.2 with faults := nc.2.faults ++ faults })
  else faults.foldl distributeFault comps

/-- The final fault deduplication (lines 344–346). -/
def dedupFaults (comps : List (String × CompInfo)) : List (String × CompInfo) :=
  comps.map fun nc => (nc.1, { nc.2 with faults := dedupFirst nc.2.faults })

/-- `IntelligentBuilder.update_extracted_info`. -/
def update_extracted_info (kb : KB) (a : Analysis) : KB :=
  let nameTruthy : Bool := match a.system_name with
    | some n => n != ""
    | none => false
  let name := if nameTruthy && (kb.system_name == "") then a.system_name.getD ""
              else kb.system_name
  { system_name := name
    components :=
      dedupFaults
        (distributeFaults
          (distributeStates (registerComponents kb.components a.components) a.states)
          a.faults) }

/-! ### core.py schemas and utilities -/

/-- core.py `Fault`. -/
structure Fault where
  name : String
deriving Repr, DecidableEq

/-- core.py `FunctionSpec`. -/
structure FunctionSpec where
  name : String
  description : String := ""
  states : List (String × Rat) := []
  modes : List String := ["nominal"]
  faults : List Fault := []
deriving Repr, DecidableEq

/-- core.py `FlowSpec`. -/
structure FlowSpec where
  name : String
  description : String := ""
  vars : List (String × Rat) := []
deriving Repr, DecidableEq

/-- core.py `ConnectionSpec`. -/
structure ConnectionSpec where
  from_fn : String
  to_fn : String
  flow_name : String
deriving Repr, DecidableEq

/-- core.py `ArchitectureSpec`. -/
structure ArchitectureSpec where
  name : String
  functions : List String
  connections : List ConnectionSpec := []
deriving Repr, DecidableEq

/-- core.py `SimulationSpec` (three fields; pydantic silently drops the
`end_time`/`time_step` keyword arguments `build_spec` passes). -/
structure SimulationSpec where
  sample_run : Bool := true
  fault_analysis : Bool := false
  parameter_study : Bool := false
deriving Repr, DecidableEq

/-- core.py `LevelSpec` (the data, without the construction-time check). -/
structure LevelSpec where
  name : String
  description : String := ""
  functions : List FunctionSpec
  flows : List FlowSpec := []
  architecture : ArchitectureSpec
  simulation : SimulationSpec := {}
  is_quick_mode : Bool := false
deriving Repr, DecidableEq

/-- Constructing a `LevelSpec`: `model_post_init` rejects an empty function
list and nothing else; a failed construction surfaces as `none`. -/
def mkLevelSpec (name description : String) (functions : List FunctionSpec)
    (flows : List FlowSpec) (architecture : ArchitectureSpec)
    (simulation : SimulationSpec) : Option LevelSpec :=
  if functions = [] then none
  else some { name := name, description := description, functions := functions,
              flows := flows, architecture := architecture, simulation := simulation }

/-- `re.sub(r'_+', '_', s)`. -/
def collapseUnderscores (s : List Char) : List Char :=
  s.foldr (fun c acc => if c = '_' ∧ acc.head? = some '_' then acc else c :: acc) []

/-- `s.strip('_')`. -/
def stripUnderscores (s : List Char) : List Char :=
  ((s.dropWhile (· = '_')).reverse.dropWhile (· = '_')).reverse

/-- core.py `sanitize_identifier`. -/
def sanitize_identifier (name : String) : String :=
  let c1 := name.data.map fun c => if c.isAlphanum || c = '_' then c else '_'
  let c3 := stripUnderscores (collapseUnderscores c1)
  match c3 with
  | [] => "default_var"
  | c :: _ => if c.isDigit then String.mk ('_' :: c3) else String.mk c3

/-! ### `build_spec` and its helpers (nlp_wizard.py lines 348–602) -/

/-- Fill a dict entry only when the key is absent (`if k not in enhanced`). -/
def fillDefault (d : List (String × Rat)) (k : String) (v : Rat) :
    List (String × Rat) :=
  if dictMem d k then d else dictSet d k v

/-- `IntelligentBuilder._enhance_states`. -/
def _enhance_states (comp_name : String) (states : List (String × Rat)) :
    List (String × Rat) :=
  let low := lowerL comp_name.data
  let e := states
  let e := fillDefault e "efficiency" ((85 : Rat) / 100)
  let e := fillDefault e "status" 1
  if containsSub "engine".data low || containsSub "motor".data low then
    let e := fillDefault e "rpm" 1800
    let e := fillDefault e "temperature" 90
    let e :=
      if !dictMem e "fuel_level" ∧
         !(e.any fun kv => containsSub "fuel".data (lowerL kv.1.data)) then
        dictSet e "fuel_level" 50
      else e
    let e := fillDefault e "oil_pressure" 40
    fillDefault e "power_output" 200
  else if containsSub "ac".data low || containsSub "air".data low
      || containsSub "climate".data low then
    let e := fillDefault e "temperature" 22
    let e := fillDefault e "pressure" 250
    let e := fillDefault e "flow_rate" 15
    fillDefault e "power_consumption" 2500
  else if containsSub "battery".data low || containsSub "electrical".data low then
    let e := fillDefault e "voltage" ((63 : Rat) / 5)
    let e := fillDefault e "current" 0
    let e := fillDefault e "charge_level" 80
    fillDefault e "temperature" 25
  else if containsSub "pump".data low || containsSub "hydraulic".data low then
    let e := fillDefault e "pressure" 100
    let e := fillDefault e "flow_rate" 10
    let e := fillDefault e "temperature" 40
    fillDefault e "vibration" ((1 : Rat) / 10)
  else if containsSub "valve".data low || containsSub "control".data low then
    let e := fillDefault e "position" 50
    let e := fillDefault e "pressure_drop" 10
    fillDefault e "flow_coefficient" 1
  else if containsSub "sensor".data low then
    let e := fillDefault e "reading" 1
    let e := fillDefault e "accuracy" ((95 : Rat) / 100)
    fillDefault e "noise_level" ((1 : Rat) / 100)
  else
    let e := fillDefault e "temperature" 25
    let e :=
      if ["flow", "fluid", "gas", "liquid"].any
          (fun w => containsSub w.data low) then
        fillDefault (fillDefault e "pressure" 100) "flow_rate" 5
      else e
    if ["compressor", "fan", "heater", "cooler"].any
        (fun w => containsSub w.data low) then
      fillDefault e "power_consumption" 1000
    else e

/-- `', '.join`. -/
def joinComma (xs : List String) : String := String.intercalate ", " xs

/-- `IntelligentBuilder._generate_component_description`. -/
def _generate_component_description (comp_name : String)
    (states : List (String × Rat)) (faults : List String) : String :=
  if comp_name = "Engine" then
    "Internal combustion engine with " ++ toString states.length ++
    " monitored states including RPM, temperature, and fuel systems. Critical faults: " ++
    (if faults ≠ [] then joinComma faults else "mechanical failure, overheating") ++ "."
  else if containsSub "Ac".data comp_name.data then
    "Air conditioning system managing cabin climate with refrigerant circulation and temperature control. Monitors " ++
    toString states.length ++ " states for optimal performance."
  else if comp_name = "Battery" then
    "Vehicle electrical storage system with " ++ toString states.length ++
    " monitored parameters including voltage, current, and charge level."
  else
    comp_name ++ " component with " ++ toString states.length ++
    " state variables and " ++ toString faults.length ++ " fault modes."

/-- `IntelligentBuilder._generate_system_description`. -/
def _generate_system_description (kb : KB) : String :=
  let components := kb.components.map (·.1)
  if "Engine" ∈ components ∧ components.any (fun c => containsSub "Ac".data c.data) then
    kb.system_name ++ " automotive system model including engine management and climate control subsystems with realistic fault modeling and state monitoring."
  else if "Engine" ∈ components then
    kb.system_name ++ " engine system model with comprehensive state monitoring, fault detection, and performance analysis capabilities."
  else
    kb.system_name ++ " system model with " ++ toString components.length ++
    " interconnected components: " ++ joinComma components ++ "."

/-- `IntelligentBuilder._create_realistic_flows`. -/
def _create_realistic_flows (functions : List FunctionSpec) : List FlowSpec :=
  let names := functions.map (·.name)
  (if "Engine" ∈ names then
    [{ name := "FuelFlow", description := "Fuel delivery to engine",
       vars := [("flow_rate", 10), ("pressure", 60), ("temperature", 25)] },
     { name := "ExhaustFlow", description := "Exhaust gases from engine",
       vars := [("flow_rate", 200), ("temperature", 400), ("pressure", (147 : Rat) / 10)] },
     { name := "CoolantFlow", description := "Engine coolant circulation",
       vars := [("flow_rate", 50), ("temperature", 90), ("pressure", 15)] }]
   else []) ++
  (if names.any (fun n => containsSub "Ac".data n.data || containsSub "Air".data n.data) then
    [{ name := "RefrigerantFlow", description := "AC refrigerant circulation",
       vars := [("flow_rate", 5), ("pressure", 250), ("temperature", -10)] },
     { name := "AirFlow", description := "Conditioned air flow",
       vars := [("flow_rate", 300), ("temperature", 22), ("humidity", 50)] }]
   else []) ++
  (if "Battery" ∈ names ∨ "Engine" ∈ names then
    [{ name := "ElectricalPower", description := "Electrical power distribution",
       vars := [("voltage", 12), ("current", 100), ("power", 1200)] }]
   else [])

/-- `IntelligentBuilder._create_realistic_connections`. -/
def _create_realistic_connections (functions : List FunctionSpec)
    (flows : List FlowSpec) : List ConnectionSpec :=
  if flows = [] then []
  else
    let names := functions.map (·.name)
    let flowNames := flows.map (·.name)
    let engineConns :=
      if "Engine" ∈ names then
        flowNames.foldl
          (fun acc fn =>
            if fn = "FuelFlow" ∨ fn = "CoolantFlow" then
              acc ++ [{ from_fn := "Engine", to_fn := "Engine", flow_name := fn }]
            else if fn = "ElectricalPower" ∧ "Battery" ∈ names then
              acc ++ [{ from_fn := "Engine", to_fn := "Battery", flow_name := fn }]
            else acc)
          []
      else []
    let acComps := names.filter fun n =>
      containsSub "Ac".data n.data || containsSub "Air".data n.data
    let acConns :=
      if acComps ≠ [] ∧ "RefrigerantFlow" ∈ flowNames then
        acComps.map fun c =>
          ({ from_fn := c, to_fn := c, flow_name := "RefrigerantFlow" } : ConnectionSpec)
      else []
    engineConns ++ acConns

/-- The per-component function constructor of `build_spec` (lines 355–372):
components with no recorded state and no recorded fault are dropped. -/
def buildFnOf (nc : String × CompInfo) : Option FunctionSpec :=
  if nc.2.states ≠ [] ∨ nc.2.faults ≠ [] then
    some { name := nc.1
           description :=
             _generate_component_description nc.1 (_enhance_states nc.1 nc.2.states) nc.2.faults
           states := _enhance_states nc.1 nc.2.states
           modes := ["nominal", "degraded", "failed"]
           faults := nc.2.faults.map (fun f => { name := f }) }
  else none

/-- The function list `build_spec` assembles. -/
def buildFunctions (kb : KB) : List FunctionSpec :=
  kb.components.filterMap buildFnOf

/-- The flow list `build_spec` assembles. -/
def buildFlowsKB (kb : KB) : List FlowSpec :=
  _create_realistic_flows (buildFunctions kb)

/-- The architecture `build_spec` assembles. -/
def buildArch (kb : KB) : ArchitectureSpec :=
  { name := sanitize_class_name kb.system_name ++ "Architecture"
    functions := (buildFunctions kb).map (·.name)
    connections := _create_realistic_connections (buildFunctions kb) (buildFlowsKB kb) }

/-- `IntelligentBuilder.build_spec`. -/
def build_spec (kb : KB) : Option LevelSpec :=
  if kb.system_name = "" ∨ kb.components = [] then none
  else if buildFunctions kb = [] then none
  else
    mkLevelSpec (sanitize_identifier kb.system_name) (_generate_system_description kb)
      (buildFunctions kb) (buildFlowsKB kb) (buildArch kb)
      { sample_run := true, fault_analysis := true, parameter_study := true }

/-! ### `is_ready` (nlp_wizard.py lines 816–855)

The category checks do `state in str(comp_info["states"]).lower()`: a
substring search over the lowercased Python dict repr.  `pyStatesChars`
reproduces that repr (`pyFloatRepr` matches CPython's float repr on the
exact decimals arising here; the search tokens are alphabetic, so only
the key text can ever contain them). -/

/-- CPython float repr for the exact decimals this program handles,
computed on the reduced numerator/denominator (`10^k % den = 0` picks the
shortest decimal expansion, matching repr's shortest-roundtrip output on
these values). -/
def pyFloatRepr (v : Rat) : String :=
  let sign : List Char := if v.num < 0 then ['-'] else []
  let n : Nat := v.num.natAbs
  let d : Nat := v.den
  match (List.range 41).find? (fun k => 10 ^ k % d = 0) with
  | some 0 => String.mk (sign ++ (toString n).data ++ ['.', '0'])
  | some (k + 1) =>
    let ds := (toString (n * 10 ^ (k + 1) / d)).data
    let s := List.replicate (k + 2 - min (k + 2) ds.length) '0' ++ ds
    let m := s.length
    String.mk (sign ++ s.take (m - (k + 1)) ++ '.' :: s.drop (m - (k + 1)))
  | none => String.mk (sign ++ (toString n).data ++ '/' :: (toString d).data)

/-- One `'key': value` entry of the dict repr. -/
def entryChars (kv : String × Rat) : List Char :=
  quoteChar :: kv.1.data ++ quoteChar :: ':' :: ' ' :: (pyFloatRepr kv.2).data

/-- The `", "`-joined entries of the dict repr. -/
def pyBodyChars : List (String × Rat) → List Char
  | [] => []
  | [kv] => entryChars kv
  | kv :: kv2 :: rest => entryChars kv ++ ',' :: ' ' :: pyBodyChars (kv2 :: rest)

/-- `str(states)` for the modelled dict. -/
def pyStatesChars (states : List (String × Rat)) : List Char :=
  lbraceChar :: pyBodyChars states ++ [rbraceChar]

/-- `any(tok in str(states).lower() for tok in toks)`. -/
def anyTok (toks : List String) (s : List Char) : Bool :=
  toks.any fun tok => containsSub tok.data s

/-- The category-specific checks of lines 831–853. -/
def categoryReady (comp_name : String) (states : List (String × Rat)) : Bool :=
  let low := lowerL comp_name.data
  let s := lowerL (pyStatesChars states)
  if containsSub "engine".data low || containsSub "motor".data low then
    anyTok ["rpm", "speed"] s && anyTok ["temperature", "temp"] s
  else if containsSub "pump".data low || containsSub "hydraulic".data low then
    anyTok ["pressure"] s && anyTok ["flow", "rate"] s
  else if containsSub "wind".data low || containsSub "turbine".data low then
    anyTok ["speed", "rpm", "power"] s
  else if containsSub "battery".data low then
    anyTok ["voltage", "charge"] s
  else true

/-- The per-component body of the `is_ready` loop (lines 822–853),
mirroring its early returns. -/
def componentReady (comp_name : String) (ci : CompInfo) : Bool :=
  if ci.states.length < 3 then false
  else if ci.faults.isEmpty then false
  else categoryReady comp_name ci.states

/-- `IntelligentBuilder.is_ready`, over the stored spec and the knowledge. -/
def is_ready (spec : Option LevelSpec) (kb : KB) : Bool :=
  match spec with
  | none => false
  | some s =>
    if s.functions = [] then false
    else kb.components.all fun nc => componentReady nc.1 nc.2

/-- Readiness of a knowledge base against its freshly rebuilt spec (the
state of affairs after any turn whose build succeeded). -/
def isReadyKB (kb : KB) : Bool := is_ready (build_spec kb) kb

/-! ### The dialogue controller's state effects (lines 23–35, 604–620, 798–814)

`process_input` appends to the history, analyzes, and for a describe
intent merges and rebuilds, installing the new spec only when the build
succeeds (`generate_intelligent_response` lines 616–620); a generate
intent mutates nothing beyond the history.  The response text, questions,
status and diff strings do not change the state and are not modelled. -/

structure BuilderState where
  spec : Option LevelSpec := none
  last_spec : Option LevelSpec := none
  conversation_history : List String := []
  extracted_info : KB := {}
deriving Repr, DecidableEq

/-- A fresh `IntelligentBuilder()` (no XML seed). -/
def initBuilder : BuilderState := {}

/-- The state transition of `IntelligentBuilder.process_input`. -/
def process_input (st : BuilderState) (input : String) : BuilderState :=
  let st1 := { st with conversation_history := st.conversation_history ++ [input] }
  let a := analyze_input input
  if a.intent = "generate" then st1
  else
    let kb' := update_extracted_info st1.extracted_info a
    match build_spec kb' with
    | some s => { st1 with extracted_info := kb', last_spec := st1.spec, spec := some s }
    | none => { st1 with extracted_info := kb' }

/-- `builder.is_ready()` on the controller state. -/
def is_ready_state (st : BuilderState) : Bool :=
  is_ready st.spec st.extracted_info

/-! ### Scenario fixtures -/

/-- Scenario A, first utterance. -/
def scenarioA_utterance1 : String :=
  "Simple pump system with rpm and temperature states; faults: overheating"

/-- Scenario A, follow-up utterance. -/
def scenarioA_utterance2 : String :=
  "The pump has rpm: 1800, temperature: 25"

/-- Controller state after the first Scenario A turn. -/
def scenarioA_state1 : BuilderState := process_input initBuilder scenarioA_utterance1

/-- Controller state after the Scenario A follow-up turn. -/
def scenarioA_state2 : BuilderState := process_input scenarioA_state1 scenarioA_utterance2

/-- The Pump knowledge Scenario A accumulates (identical after both turns:
the follow-up's explicit values collide with the bare-mention defaults). -/
def scenarioA_pumpInfo : CompInfo :=
  { states := [("rpm", 1800), ("temperature", 90)], faults := ["overheating"] }

/-! ### Helper lemmas about the dict model -/

theorem dictGet_dictSet (d : List (String × Rat)) (k : String) (v : Rat) :
    dictGet (dictSet d k v) k = some v := by
  induction d with
  | nil => simp [dictSet, dictGet]
  | cons kv t ih =>
    by_cases hk : kv.1 = k
    · simp [dictSet, dictGet, hk]
    · have hany : ((kv :: t).any fun x => decide (x.1 = k)) = t.any fun x => decide (x.1 = k) := by
        simp [hk]
      by_cases hmem : (t.any fun x => decide (x.1 = k)) = true
      · have hset : dictSet (kv :: t) k v =
            kv :: t.map (fun x => if x.1 = k then (k, v) else x) := by
          simp only [dictSet, List.any_cons, List.map_cons]
          rw [if_pos (by simp [hk, hmem])]
          simp [hk]
        rw [hset]
        have := ih
        rw [dictSet, if_pos hmem] at this
        simpa [dictGet, hk] using this
      · have hset : dictSet (kv :: t) k v = kv :: (t ++ [(k, v)]) := by
          simp only [dictSet, List.any_cons]
          rw [if_neg (by simp [hk, hmem])]
          simp
        rw [hset]
        have := ih
        rw [dictSet, if_neg hmem] at this
        simpa [dictGet, hk] using this

/-! ### Claim C1 (Scenario A) -/

/-- Claim C1, counterexample: after the Scenario A follow-up utterance the
Pump component holds exactly two recorded states — `temperature` is 90.0
(the bare-mention default overwrote the explicit 25) — and `is_ready()`
returns `false`, where the claim asserts three states, pump-category
passes and readiness `true`. -/
theorem C1_scenarioA_counterexample :
    scenarioA_state2.extracted_info.components = [("Pump", scenarioA_pumpInfo)] ∧
    is_ready_state scenarioA_state2 = false :=
  ⟨by decide, by decide⟩

/-- Claim C1, amended: the first utterance registers component "Pump" with
fault "overheating" and two recorded states and `is_ready()` is false; the
follow-up leaves the recorded knowledge unchanged (rpm stays 1800, the
explicit temperature 25 is overwritten by the bare-mention default 90
inside the same analysis), a specification is built on both turns, and
`is_ready()` stays false because readiness counts the recorded states —
not the category-enriched ones — and Pump has only two. -/
theorem C1_scenarioA_amended :
    scenarioA_state1.extracted_info =
      { system_name := "Simple pump", components := [("Pump", scenarioA_pumpInfo)] } ∧
    is_ready_state scenarioA_state1 = false ∧
    scenarioA_state1.spec.isSome = true ∧
    (analyze_input scenarioA_utterance2).states = [("rpm", 1800), ("temperature", 90)] ∧
    scenarioA_state2.extracted_info =
      { system_name := "Simple pump", components := [("Pump", scenarioA_pumpInfo)] } ∧
    is_ready_state scenarioA_state2 = false ∧
    scenarioA_state2.spec.isSome = true :=
  ⟨by decide, by decide, by decide, by decide, by decide, by decide, by decide⟩

/-! ### Claim C2 (Scenario B fault set) -/

/-- Claim C2, counterexample: parsing
`"faults: cavitation,seal_leak,motor_failure"` alone also yields the
spurious fault `"seal"` (the `faults?:` pattern's capture class has no
underscore, so it truncates at `seal_leak`), so the fault set is not
exactly the claimed three-element set. -/
theorem C2_faultSet_counterexample :
    "seal" ∈ (analyze_input "faults: cavitation,seal_leak,motor_failure").faults ∧
    (analyze_input "faults: cavitation,seal_leak,motor_failure").faults.toFinset ≠
      ({"cavitation", "seal_leak", "motor_failure"} : Finset String) :=
  ⟨by decide, by decide⟩

/-- Claim C2, amended: the text yields the fault set
`{cavitation, seal, seal_leak, motor_failure}` — the three listed faults
plus `"seal"` from the truncated `faults?:`-list capture. -/
theorem C2_faultSet_amended :
    (analyze_input "faults: cavitation,seal_leak,motor_failure").faults.toFinset =
      ({"cavitation", "seal", "seal_leak", "motor_failure"} : Finset String) := by
  decide

/-! ### Claim C3 (explicit `X: number` states) -/

/-- Claim C3, counterexample: `"temperature: 25"` has the form
`X: <number>` with no unit at all, yet the resulting state mapping is
`temperature = 90.0`: the bare-mention pattern (tried later) overwrites
the parsed 25.0 with its fixed default. -/
theorem C3_explicitState_counterexample :
    (analyze_input "temperature: 25").states = [("temperature", 90)] ∧
    ((90 : Rat) ≠ 25) :=
  ⟨by decide, by decide⟩

/-- Claim C3, amended: an explicit `X: <number>` with unrecognized unit
yields `X = number` exactly when the derived key is not in the
bare-mention vocabulary (`weight: 25` stays 25.0); when it is, the
bare-mention branch — applied later in the fixed pattern order —
unconditionally overwrites the key with its table default, whatever value
any earlier pattern wrote. -/
theorem C3_explicitState_amended :
    (analyze_input "weight: 25").states = [("weight", 25)] ∧
    (analyze_input "temperature: 25").states = [("temperature", 90)] ∧
    ∀ (d : List (String × Rat)) (w : String) (p : String × Rat),
      stateDefaults.find? (fun kv => kv.1 = stateNameOf w) = some p →
      applyStateMatch d [some w] = dictSet d (stateNameOf w) p.2 := by
  refine ⟨by decide, by decide, ?_⟩
  intro d w p hfind
  show (match stateDefaults.find? (fun kv => kv.1 = stateNameOf w) with
        | some kv => dictSet d (stateNameOf w) kv.2
        | none => d) = dictSet d (stateNameOf w) p.2
  rw [hfind]

/-- Claim C3 amended, witness: the overwrite equation applied at the
counterexample's own key. -/
theorem C3_explicitState_amended_witness :
    stateDefaults.find? (fun kv => kv.1 = stateNameOf "temperature") =
      some ("temperature", 90) ∧
    applyStateMatch [("temperature", 25)] [some "temperature"] =
      dictSet [("temperature", 25)] (stateNameOf "temperature") 90 :=
  ⟨by decide,
   C3_explicitState_amended.2.2 [("temperature", 25)] "temperature" ("temperature", 90)
     (by decide)⟩

/-! ### Claim C5 (unit-driven canonical renaming) -/

/-- Claim C5, counterexample: for `"output: 250 kw"` the explicit pattern
does not rename — the raw key `output` stays in the mapping (`power_output`
is added separately by the standalone technical-spec pattern) — while
`"output: 250 hp"` really is renamed, leaving no `output` key.  So kw does
not behave "as with hp". -/
theorem C5_kwUnit_counterexample :
    (analyze_input "output: 250 kw").states = [("output", 250), ("power_output", 250)] ∧
    (analyze_input "output: 250 hp").states = [("power_output", 250)] :=
  ⟨by decide, by decide⟩

/-- Claim C5, amended: in the explicit `name: number unit` branch only
hp/bhp rename to power_output and kw is left untouched; psi/bar rename to
pressure, gpm/lpm/cfm to flow_rate, and litre-unit displacement values are
scaled by 1000; a kw value becomes `power_output` only through the
standalone technical-spec pattern, which adds the key without removing the
explicit one. -/
theorem C5_unitRename_amended :
    (∀ (name : String) (v : Rat), explicitRename name v "kw" = (name, v)) ∧
    (∀ (name : String) (v : Rat),
      explicitRename name v "hp" = ("power_output", v) ∧
      explicitRename name v "bhp" = ("power_output", v) ∧
      explicitRename name v "psi" = ("pressure", v) ∧
      explicitRename name v "bar" = ("pressure", v) ∧
      explicitRename name v "gpm" = ("flow_rate", v) ∧
      explicitRename name v "lpm" = ("flow_rate", v) ∧
      explicitRename name v "cfm" = ("flow_rate", v)) ∧
    (∀ v : Rat, explicitRename "displacement" v "l" = ("displacement", v * 1000)) ∧
    (∀ (d : List (String × Rat)) (numStr : String), isNumericPy numStr = true →
      applyStateMatch d [some numStr, some "kw"] =
        dictSet d "power_output" (parseDecimal numStr.data)) := by
  refine ⟨fun name v => rfl,
          fun name v => ⟨rfl, rfl, rfl, rfl, rfl, rfl, rfl⟩,
          fun v => rfl, ?_⟩
  intro d numStr h
  unfold applyStateMatch
  split
  · rename_i hc
    exact absurd hc.2.2 (show ¬ isNumericPy "kw" = true by decide)
  · split
    · rename_i hc
      exact absurd hc.1 (show ¬ (3 : Nat) ≤ 2 by decide)
    · split
      · rfl
      · rename_i hc
        exact absurd ⟨show (2 : Nat) ≤ 2 by decide, h⟩ hc

/-- Claim C5 amended, witness: the branch equations applied at the
counterexample's numbers. -/
theorem C5_unitRename_amended_witness :
    explicitRename "output" 250 "kw" = ("output", 250) ∧
    explicitRename "output" 250 "hp" = ("power_output", 250) ∧
    isNumericPy "250" = true ∧
    applyStateMatch [] [some "250", some "kw"] =
      dictSet [] "power_output" (parseDecimal "250".data) :=
  ⟨C5_unitRename_amended.1 "output" 250,
   (C5_unitRename_amended.2.1 "output" 250).1,
   by decide,
   C5_unitRename_amended.2.2.2 [] "250" (by decide)⟩

/-! ### Claim C7 (generation intent short-circuit) -/

/-- Claim C7: any text containing a generation trigger word makes
`analyze_input` return immediately with intent `generate` and no
extraction at all: no system-name candidate, empty components, states and
faults. -/
theorem C7_generate_shortcircuit (text : String)
    (h : hasGenerationTrigger (stripL text.data) = true) :
    (analyze_input text).intent = "generate" ∧
    (analyze_input text).system_name = none ∧
    (analyze_input text).components = [] ∧
    (analyze_input text).states = [] ∧
    (analyze_input text).faults = [] ∧
    (analyze_input text).confidence = 0 := by
  unfold analyze_input
  rw [if_pos h]
  exact ⟨rfl, rfl, rfl, rfl, rfl, rfl⟩

/-- Claim C7, witness at a concrete triggering text. -/
theorem C7_generate_shortcircuit_witness :
    hasGenerationTrigger (stripL "please generate the model".data) = true ∧
    (analyze_input "please generate the model").intent = "generate" ∧
    (analyze_input "please generate the model").components = [] :=
  ⟨by decide,
   (C7_generate_shortcircuit "please generate the model" (by decide)).1,
   (C7_generate_shortcircuit "please generate the model" (by decide)).2.2.1⟩

/-! ### Claim C8 (build with insufficient information) -/

/-- Claim C8: `build_spec` returns `none` whenever the knowledge base has
an empty system name or an empty component map (its first guard), so an
empty name with non-empty components yields `none`, not a specification. -/
theorem C8_build_insufficient (kb : KB)
    (h : kb.system_name = "" ∨ kb.components = []) :
    build_spec kb = none := by
  unfold build_spec
  rw [if_pos h]

/-- Claim C8, witness: Scenario C — empty system name, one component with
recorded knowledge, and the build still yields `none`. -/
theorem C8_build_insufficient_witness :
    build_spec
      { system_name := ""
        components := [("Pump", { states := [("rpm", 1800)], faults := ["leak"] })] } =
      none :=
  C8_build_insufficient
    { system_name := ""
      components := [("Pump", { states := [("rpm", 1800)], faults := ["leak"] })] }
    (Or.inl rfl)

/-! ### Claim C9 (merging a component-less record) -/

/-- Claim C9, counterexample: a record with an empty component set but a
system-name candidate, merged into an empty knowledge base, does change
the system name — the claim's "leaves the system name unchanged" fails. -/
theorem C9_merge_counterexample :
    (update_extracted_info {}
        { system_name := some "Widget", states := [("x", 1)], faults := ["boom"] }
      ).system_name = "Widget" ∧
    ("Widget" : String) ≠ "" :=
  ⟨by decide, by decide⟩

/-- Claim C9, amended: merging a record with an empty component set into a
knowledge base with an empty component map leaves the component map empty
(its states and faults are silently discarded, with no other field to
retain them), and the system name is unchanged unless the record carries a
non-empty candidate while the knowledge base's name is still empty — in
which case it is set. -/
theorem C9_merge_amended (kb : KB) (a : Analysis)
    (hc : a.components = []) (hk : kb.components = []) :
    (update_extracted_info kb a).components = [] ∧
    ((a.system_name = none ∨ a.system_name = some "" ∨ kb.system_name ≠ "") →
      (update_extracted_info kb a).system_name = kb.system_name) := by
  have hstates : ∀ l : List (String × Rat),
      l.foldl (fun cs kv => distributeState cs kv.1 kv.2) [] = [] := by
    intro l
    induction l with
    | nil => rfl
    | cons kv t ih => simpa [distributeState, setStateOn, kbHas] using ih
  have hfaults : ∀ l : List String, l.foldl distributeFault [] = [] := by
    intro l
    induction l with
    | nil => rfl
    | cons f t ih => simpa [distributeFault, addFaultOn, kbHas] using ih
  constructor
  · by_cases hs : a.states = [] <;> by_cases hf : a.faults = [] <;>
      simp [update_extracted_info, registerComponents, distributeStates, distributeFaults,
        dedupFaults, hc, hk, hs, hf, hstates, hfaults]
  · intro hname
    rcases hname with h | h | h
    · simp [update_extracted_info, h]
    · simp [update_extracted_info, h]
    · have hb : (kb.system_name == "") = false := beq_false_of_ne h
      simp [update_extracted_info, hb]

/-- Claim C9 amended, witness: the amended statement at the
counterexample's own record. -/
theorem C9_merge_amended_witness :
    (update_extracted_info {}
        { system_name := some "Widget", states := [("x", 1)], faults := ["boom"] }
      ).components = [] :=
  (C9_merge_amended {}
      { system_name := some "Widget", states := [("x", 1)], faults := ["boom"] }
      rfl rfl).1

/-! ### Claim C10 (the stored spec is only replaced by successful builds) -/

/-- Claim C10: one dialogue turn either leaves the stored specification
untouched (generate intent, or a rebuild that returns none) or installs
exactly the successful rebuild; consequently a stored specification is
never cleared — once it is `some`, it stays `some` after any turn. -/
theorem C10_spec_persistence (st : BuilderState) (input : String) :
    ((process_input st input).spec = st.spec ∨
      ((process_input st input).spec =
          build_spec (update_extracted_info st.extracted_info (analyze_input input)) ∧
        (build_spec (update_extracted_info st.extracted_info (analyze_input input))).isSome =
          true)) ∧
    (st.spec.isSome = true → (process_input st input).spec.isSome = true) := by
  unfold process_input
  dsimp only
  by_cases hi : (analyze_input input).intent = "generate"
  · rw [if_pos hi]
    exact ⟨Or.inl rfl, fun h => h⟩
  · rw [if_neg hi]
    split
    · rename_i s hb
      exact ⟨Or.inr ⟨by rw [hb], by rw [hb]; rfl⟩, fun _ => rfl⟩
    · exact ⟨Or.inl rfl, fun h => h⟩

/-- Claim C10, witness: a turn whose rebuild fails (generate-intent
short-circuit) keeps the one-function spec it had. -/
theorem C10_spec_persistence_witness :
    (({ spec := some { name := "m", functions := [{ name := "F" }],
                       architecture := { name := "A", functions := ["F"] } },
        last_spec := none, conversation_history := [], extracted_info := {} } :
        BuilderState).spec.isSome = true) ∧
    ((process_input
        { spec := some { name := "m", functions := [{ name := "F" }],
                         architecture := { name := "A", functions := ["F"] } },
          last_spec := none, conversation_history := [], extracted_info := {} }
        "please generate").spec.isSome = true) :=
  ⟨rfl,
   (C10_spec_persistence
      { spec := some { name := "m", functions := [{ name := "F" }],
                       architecture := { name := "A", functions := ["F"] } },
        last_spec := none, conversation_history := [], extracted_info := {} }
      "please generate").2 rfl⟩

/-! ### Claim C4 (structural invariants of Specification construction) -/

/-- Boolean duplicate-freedom of a name list. -/
def nodupB : List String → Bool
  | [] => true
  | x :: t => !t.contains x && nodupB t

/-- The structural invariants of §3, following the spec's words: at least
one function, function and flow names unique within their lists, and
every function name referenced by a connection present in the function
list.  This definition is the spec side of the comparison; the code side
is `mkLevelSpec`/`build_spec`. -/
def specInvariantsB (s : LevelSpec) : Bool :=
  !s.functions.isEmpty &&
  nodupB (s.functions.map (·.name)) &&
  nodupB (s.flows.map (·.name)) &&
  s.architecture.connections.all fun c =>
    (s.functions.map (·.name)).contains c.from_fn &&
    (s.functions.map (·.name)).contains c.to_fn

theorem nodupB_iff (l : List String) : nodupB l = true ↔ l.Nodup := by
  induction l with
  | nil => simp [nodupB]
  | cons x t ih =>
    simp only [nodupB, Bool.and_eq_true, Bool.not_eq_true', List.nodup_cons, ih]
    constructor
    · rintro ⟨h1, h2⟩
      refine ⟨fun hm => ?_, h2⟩
      cases (List.elem_iff.mpr hm).symm.trans h1
    · rintro ⟨h1, h2⟩
      refine ⟨?_, h2⟩
      by_cases hc : t.contains x = true
      · exact absurd (List.elem_iff.mp hc) h1
      · simpa using hc

/-- A constructed function's name is its component's key. -/
theorem buildFnOf_name {nc : String × CompInfo} {fn : FunctionSpec}
    (h : buildFnOf nc = some fn) : fn.name = nc.1 := by
  unfold buildFnOf at h
  split at h
  · injection h with h'
    rw [← h']
  · cases h

/-- The assembled function names form a sublist of the component keys. -/
theorem buildFunctions_names_sublist (comps : List (String × CompInfo)) :
    ((comps.filterMap buildFnOf).map (·.name)).Sublist (comps.map (·.1)) := by
  induction comps with
  | nil => simp
  | cons nc t ih =>
    rw [List.filterMap_cons]
    cases h : buildFnOf nc with
    | none => exact ih.cons nc.1
    | some fn =>
      rw [List.map_cons, List.map_cons, buildFnOf_name h]
      exact ih.cons₂ nc.1

/-- The synthesized flow names are duplicate-free (six fixed names, each
added at most once). -/
theorem flows_names_nodupB (functions : List FunctionSpec) :
    nodupB ((_create_realistic_flows functions).map (·.name)) = true := by
  simp only [_create_realistic_flows]
  by_cases h1 : "Engine" ∈ functions.map (·.name)
  · by_cases h2 : ((functions.map (·.name)).any
        (fun n => containsSub "Ac".data n.data || containsSub "Air".data n.data)) = true
    · rw [if_pos h1, if_pos h2, if_pos (Or.inr h1)]
      decide
    · rw [if_pos h1, if_neg h2, if_pos (Or.inr h1)]
      decide
  · by_cases h2 : ((functions.map (·.name)).any
        (fun n => containsSub "Ac".data n.data || containsSub "Air".data n.data)) = true
    · by_cases h3 : "Battery" ∈ functions.map (·.name)
      · rw [if_neg h1, if_pos h2, if_pos (Or.inl h3)]
        decide
      · rw [if_neg h1, if_pos h2, if_neg (fun h => h.elim h3 h1)]
        decide
    · by_cases h3 : "Battery" ∈ functions.map (·.name)
      · rw [if_neg h1, if_neg h2, if_pos (Or.inl h3)]
        decide
      · rw [if_neg h1, if_neg h2, if_neg (fun h => h.elim h3 h1)]
        decide

/-- Membership through the engine-connection fold of
`_create_realistic_connections`. -/
theorem mem_engine_fold {names : List String} {c : ConnectionSpec}
    (l : List String) (init : List ConnectionSpec)
    (h : c ∈ l.foldl
      (fun acc fn =>
        if fn = "FuelFlow" ∨ fn = "CoolantFlow" then
          acc ++ [{ from_fn := "Engine", to_fn := "Engine", flow_name := fn }]
        else if fn = "ElectricalPower" ∧ "Battery" ∈ names then
          acc ++ [{ from_fn := "Engine", to_fn := "Battery", flow_name := fn }]
        else acc)
      init) :
    c ∈ init ∨
      (c.from_fn = "Engine" ∧
        (c.to_fn = "Engine" ∨ (c.to_fn = "Battery" ∧ "Battery" ∈ names))) := by
  induction l generalizing init with
  | nil => exact Or.inl h
  | cons fn t ih =>
    rw [List.foldl_cons] at h
    rcases ih _ h with h' | h'
    · split at h'
      · rcases List.mem_append.mp h' with h'' | h''
        · exact Or.inl h''
        · rcases List.mem_singleton.mp h'' with rfl
          exact Or.inr ⟨rfl, Or.inl rfl⟩
      · split at h'
        · rcases List.mem_append.mp h' with h'' | h''
          · exact Or.inl h''
          · rcases List.mem_singleton.mp h'' with rfl
            rename_i hcond
            exact Or.inr ⟨rfl, Or.inr ⟨rfl, hcond.2⟩⟩
        · exact Or.inl h'
    · exact Or.inr h'

/-- Every synthesized connection references only assembled function names. -/
theorem connections_mem_names (functions : List FunctionSpec) (flows : List FlowSpec) :
    ∀ c ∈ _create_realistic_connections functions flows,
      c.from_fn ∈ functions.map (·.name) ∧ c.to_fn ∈ functions.map (·.name) := by
  intro c hc
  unfold _create_realistic_connections at hc
  split at hc
  · cases hc
  · rcases List.mem_append.mp hc with h | h
    · by_cases he : "Engine" ∈ functions.map (·.name)
      · rw [if_pos he] at h
        rcases mem_engine_fold _ [] h with h' | h'
        · cases h'
        · rcases h'.2 with h2 | h2
          · exact ⟨h'.1 ▸ he, h2 ▸ he⟩
          · exact ⟨h'.1 ▸ he, h2.1 ▸ h2.2⟩
      · rw [if_neg he] at h
        cases h
    · split at h
      · rcases List.mem_map.mp h with ⟨n, hn, rfl⟩
        have := List.mem_of_mem_filter hn
        exact ⟨this, this⟩
      · cases h

/-- Shape of a successful build: the guards held and the spec is exactly
the assembled one. -/
theorem build_spec_some_shape {kb : KB} {s : LevelSpec} (h : build_spec kb = some s) :
    kb.system_name ≠ "" ∧ kb.components ≠ [] ∧ buildFunctions kb ≠ [] ∧
    s.functions = buildFunctions kb ∧ s.flows = buildFlowsKB kb ∧
    s.architecture = buildArch kb := by
  unfold build_spec at h
  split at h
  · cases h
  · rename_i h1
    split at h
    · cases h
    · rename_i h2
      unfold mkLevelSpec at h
      rw [if_neg h2] at h
      injection h with h3
      push_neg at h1
      exact ⟨h1.1, h1.2, h2, by rw [← h3], by rw [← h3], by rw [← h3]⟩

/-- Keys are unchanged by a map that preserves first components. -/
theorem map_fst_setStateOn (p : String → Bool) (cs : List (String × CompInfo))
    (k : String) (v : Rat) : (setStateOn p cs k v).map (·.1) = cs.map (·.1) := by
  unfold setStateOn
  rw [List.map_map]
  apply List.map_congr_left
  intro nc _
  by_cases h : p nc.1 = true <;> simp [h]

theorem map_fst_addFaultOn (p : String → Bool) (cs : List (String × CompInfo))
    (f : String) : (addFaultOn p cs f).map (·.1) = cs.map (·.1) := by
  unfold addFaultOn
  rw [List.map_map]
  apply List.map_congr_left
  intro nc _
  by_cases h : p nc.1 = true <;> simp [h]

theorem map_fst_distributeState (cs : List (String × CompInfo)) (k : String) (v : Rat) :
    (distributeState cs k v).map (·.1) = cs.map (·.1) := by
  unfold distributeState
  split
  · exact map_fst_setStateOn _ _ _ _
  · split
    · exact map_fst_setStateOn _ _ _ _
    · exact map_fst_setStateOn _ _ _ _

theorem map_fst_distributeFault (cs : List (String × CompInfo)) (f : String) :
    (distributeFault cs f).map (·.1) = cs.map (·.1) := by
  unfold distributeFault
  split
  · exact map_fst_addFaultOn _ _ _
  · exact map_fst_addFaultOn _ _ _

theorem map_fst_foldl_distributeState (states : List (String × Rat)) :
    ∀ cs : List (String × CompInfo),
      (states.foldl (fun cs kv => distributeState cs kv.1 kv.2) cs).map (·.1) =
        cs.map (·.1) := by
  induction states with
  | nil => intro cs; rfl
  | cons kv t ih =>
    intro cs
    rw [List.foldl_cons, ih, map_fst_distributeState]

theorem map_fst_foldl_distributeFault (faults : List String) :
    ∀ cs : List (String × CompInfo),
      (faults.foldl distributeFault cs).map (·.1) = cs.map (·.1) := by
  induction faults with
  | nil => intro cs; rfl
  | cons f t ih =>
    intro cs
    rw [List.foldl_cons, ih, map_fst_distributeFault]

theorem map_fst_distributeStates (cs : List (String × CompInfo))
    (states : List (String × Rat)) :
    (distributeStates cs states).map (·.1) = cs.map (·.1) := by
  unfold distributeStates
  split
  · rfl
  · split
    · rw [List.map_map]
      apply List.map_congr_left
      intro nc _
      rfl
    · exact map_fst_foldl_distributeState states cs

theorem map_fst_distributeFaults (cs : List (String × CompInfo))
    (faults : List String) :
    (distributeFaults cs faults).map (·.1) = cs.map (·.1) := by
  unfold distributeFaults
  split
  · rfl
  · split
    · rw [List.map_map]
      apply List.map_congr_left
      intro nc _
      rfl
    · exact map_fst_foldl_distributeFault faults cs

theorem map_fst_dedupFaults (cs : List (String × CompInfo)) :
    (dedupFaults cs).map (·.1) = cs.map (·.1) := by
  unfold dedupFaults
  rw [List.map_map]
  apply List.map_congr_left
  intro nc _
  rfl

/-- Registration only appends names that are absent, keeping keys
duplicate-free. -/
theorem registerComponents_nodup (l : List String) (comps : List (String × CompInfo))
    (h : nodupB (comps.map (·.1)) = true) :
    nodupB ((registerComponents comps l).map (·.1)) = true := by
  unfold registerComponents
  induction l generalizing comps with
  | nil => exact h
  | cons c t ih =>
    rw [List.foldl_cons]
    by_cases hc : kbHas comps c = true
    · rw [if_pos hc]
      exact ih _ h
    · rw [if_neg hc]
      apply ih
      rw [List.map_append]
      rw [nodupB_iff] at h ⊢
      have hmem : c ∉ comps.map (·.1) := by
        intro hm
        rcases List.mem_map.mp hm with ⟨nc, hnc, heq⟩
        have : kbHas comps c = true := by
          unfold kbHas
          exact List.any_eq_true.mpr ⟨nc, hnc, by simp [heq]⟩
        exact hc this
      simp [List.nodup_append, h, hmem]

/-- Claim C4, counterexample: a Specification built directly with two
identically named functions passes construction (validation checks only
that the function list is non-empty), violating name uniqueness; one with
a connection naming an absent function passes as well. -/
theorem C4_validation_counterexample :
    mkLevelSpec "x" "" [{ name := "A" }, { name := "A" }] []
        { name := "Arch", functions := ["A", "A"] } {} =
      some { name := "x", description := "", functions := [{ name := "A" }, { name := "A" }],
             flows := [], architecture := { name := "Arch", functions := ["A", "A"] },
             simulation := {} } ∧
    specInvariantsB
      { name := "x", description := "", functions := [{ name := "A" }, { name := "A" }],
        flows := [], architecture := { name := "Arch", functions := ["A", "A"] },
        simulation := {} } = false ∧
    mkLevelSpec "y" "" [{ name := "A" }] []
        { name := "Arch", functions := ["A"],
          connections := [{ from_fn := "B", to_fn := "A", flow_name := "F" }] } {} =
      some { name := "y", description := "", functions := [{ name := "A" }], flows := [],
             architecture := { name := "Arch", functions := ["A"],
                               connections := [{ from_fn := "B", to_fn := "A", flow_name := "F" }] },
             simulation := {} } ∧
    specInvariantsB
      { name := "y", description := "", functions := [{ name := "A" }], flows := [],
        architecture := { name := "Arch", functions := ["A"],
                          connections := [{ from_fn := "B", to_fn := "A", flow_name := "F" }] },
        simulation := {} } = false :=
  ⟨by decide, by decide, by decide, by decide⟩

/-- Claim C4, amended: constructing a Specification enforces only the
at-least-one-function invariant (an empty function list is the only
validation failure, surfaced as `none`); name uniqueness and connection
references are not checked at construction.  Nevertheless every
specification `build_spec` actually produces satisfies all the §3
invariants, because the component dict's keys are unique — a property
every merge preserves — and the rule-driven flow/connection synthesis
only references surviving function names. -/
theorem C4_invariants_amended :
    (∀ (name desc : String) (flows : List FlowSpec) (arch : ArchitectureSpec)
        (sim : SimulationSpec), mkLevelSpec name desc [] flows arch sim = none) ∧
    (∀ (name desc : String) (fns : List FunctionSpec) (flows : List FlowSpec)
        (arch : ArchitectureSpec) (sim : SimulationSpec), fns ≠ [] →
      mkLevelSpec name desc fns flows arch sim =
        some { name := name, description := desc, functions := fns, flows := flows,
               architecture := arch, simulation := sim }) ∧
    (∀ (kb : KB) (s : LevelSpec), nodupB (kb.components.map (·.1)) = true →
      build_spec kb = some s → specInvariantsB s = true) ∧
    (∀ (kb : KB) (a : Analysis), nodupB (kb.components.map (·.1)) = true →
      nodupB ((update_extracted_info kb a).components.map (·.1)) = true) := by
  refine ⟨?_, ?_, ?_, ?_⟩
  · intro name desc flows arch sim
    unfold mkLevelSpec
    rw [if_pos rfl]
  · intro name desc fns flows arch sim h
    unfold mkLevelSpec
    rw [if_neg h]
  · intro kb s hnodup hbuild
    obtain ⟨hn, hc, hfn, hsf, hsfl, hsa⟩ := build_spec_some_shape hbuild
    unfold specInvariantsB
    rw [hsf, hsfl, hsa]
    simp only [Bool.and_eq_true]
    refine ⟨⟨⟨?_, ?_⟩, ?_⟩, ?_⟩
    · simpa [List.isEmpty_iff] using hfn
    · rw [nodupB_iff]
      exact ((nodupB_iff _).mp hnodup).sublist (buildFunctions_names_sublist kb.components)
    · exact flows_names_nodupB (buildFunctions kb)
    · rw [List.all_eq_true]
      intro c hcmem
      have hm := connections_mem_names (buildFunctions kb) (buildFlowsKB kb) c hcmem
      simp only [Bool.and_eq_true]
      exact ⟨List.elem_iff.mpr hm.1, List.elem_iff.mpr hm.2⟩
  · intro kb a h
    unfold update_extracted_info
    simp only []
    rw [map_fst_dedupFaults, map_fst_distributeFaults, map_fst_distributeStates]
    exact registerComponents_nodup _ _ h

/-- Claim C4 amended, witness: the amended statement applied at a
concrete knowledge base holding one pump component. -/
theorem C4_invariants_amended_witness :
    nodupB
        (({ system_name := "p"
            components := [("Pump", { states := [("pressure", 100)], faults := ["leak"] })] } :
            KB).components.map (·.1)) = true ∧
    ∀ s, build_spec
        { system_name := "p"
          components := [("Pump", { states := [("pressure", 100)], faults := ["leak"] })] } =
        some s → specInvariantsB s = true :=
  ⟨by decide,
   fun s h =>
     C4_invariants_amended.2.2.1
       { system_name := "p"
         components := [("Pump", { states := [("pressure", 100)], faults := ["leak"] })] }
       s (by decide) h⟩

/-! ### Claim C6 (readiness monotonicity) -/

/-- Component knowledge extension: further states appended, all previous
faults kept. -/
def CompExtends (c c' : CompInfo) : Prop :=
  (∃ extra, c'.states = c.states ++ extra) ∧ ∀ f ∈ c.faults, f ∈ c'.faults

/-- Knowledge extension: same system name, the same components in order,
each extended. -/
def KBExtends (kb kb' : KB) : Prop :=
  kb'.system_name = kb.system_name ∧
  List.Forall₂ (fun nc nc' => nc'.1 = nc.1 ∧ CompExtends nc.2 nc'.2)
    kb.components kb'.components

theorem containsSub_append_right {n h1 : List Char} (h2 : List Char)
    (h : containsSub n h1 = true) : containsSub n (h1 ++ h2) = true := by
  rw [containsSub_iff] at h ⊢
  rcases h with ⟨a, b, rfl⟩
  exact ⟨a, b ++ h2, by simp⟩

theorem containsSub_dropLast {n h : List Char} {c : Char}
    (hc : c ∉ n) (hsub : containsSub n (h ++ [c]) = true) : containsSub n h = true := by
  rw [containsSub_iff] at hsub ⊢
  rcases hsub with ⟨a, b, hab⟩
  rcases List.eq_nil_or_concat b with rfl | ⟨b', cb, hb⟩
  · rcases List.eq_nil_or_concat n with rfl | ⟨n', cn, hn⟩
    · exact ⟨[], h, by simp⟩
    · rw [hn, List.concat_eq_append] at hab hc
      rw [List.append_nil] at hab
      have hab' : (a ++ n') ++ [cn] = h ++ [c] := by simpa [List.append_assoc] using hab
      have h2 := List.append_inj' hab' rfl
      have hcn : cn = c := by simpa using congrArg (fun l => l.headD cn) h2.2
      exact absurd (by simp [hcn] : c ∈ n' ++ [cn]) hc
  · rw [hb, List.concat_eq_append] at hab
    have hab' : (a ++ n ++ b') ++ [cb] = h ++ [c] := by simpa [List.append_assoc] using hab
    have h2 := List.append_inj' hab' rfl
    exact ⟨a, b', h2.1⟩

theorem pyBodyChars_append (st ex : List (String × Rat)) (hst : st ≠ []) (hex : ex ≠ []) :
    pyBodyChars (st ++ ex) = pyBodyChars st ++ ',' :: ' ' :: pyBodyChars ex := by
  induction st with
  | nil => exact absurd rfl hst
  | cons kv t ih =>
    cases t with
    | nil =>
      cases ex with
      | nil => exact absurd rfl hex
      | cons e ex' => rfl
    | cons kv2 t2 =>
      have hne : kv2 :: t2 ≠ [] := by simp
      calc pyBodyChars ((kv :: kv2 :: t2) ++ ex)
          = entryChars kv ++ ',' :: ' ' :: pyBodyChars ((kv2 :: t2) ++ ex) := rfl
        _ = entryChars kv ++
              ',' :: ' ' :: (pyBodyChars (kv2 :: t2) ++ ',' :: ' ' :: pyBodyChars ex) := by
            rw [ih hne]
        _ = pyBodyChars (kv :: kv2 :: t2) ++ ',' :: ' ' :: pyBodyChars ex := by
            show _ = (entryChars kv ++ ',' :: ' ' :: pyBodyChars (kv2 :: t2)) ++
              ',' :: ' ' :: pyBodyChars ex
            simp [List.append_assoc]

/-- A category token surviving in the lowered dict repr still survives
after appending further entries: the old repr minus its closing brace is a
prefix of the new repr, and the tokens never contain the brace. -/
theorem tok_lower_pyStates_mono (tok : String) (st ex : List (String × Rat))
    (hst : st ≠ []) (hbr : rbraceChar ∉ tok.data)
    (h : containsSub tok.data (lowerL (pyStatesChars st)) = true) :
    containsSub tok.data (lowerL (pyStatesChars (st ++ ex))) = true := by
  cases ex with
  | nil => simpa using h
  | cons e ex' =>
    have hold : lowerL (pyStatesChars st) =
        lowerL (lbraceChar :: pyBodyChars st) ++ [rbraceChar] := by
      unfold pyStatesChars lowerL
      rw [List.map_append]
      simp [show Char.toLower rbraceChar = rbraceChar from by decide]
    rw [hold] at h
    have h2 := containsSub_dropLast hbr h
    have hdecomp : lowerL (pyStatesChars (st ++ e :: ex')) =
        lowerL (lbraceChar :: pyBodyChars st) ++
          lowerL (',' :: ' ' :: pyBodyChars (e :: ex') ++ [rbraceChar]) := by
      unfold pyStatesChars lowerL
      rw [pyBodyChars_append st (e :: ex') hst (by simp)]
      rw [← List.map_append]
      congr 1
      simp
    rw [hdecomp]
    exact containsSub_append_right _ h2

theorem anyTok_pyStates_mono (toks : List String) (st ex : List (String × Rat))
    (hst : st ≠ []) (hbr : ∀ tok ∈ toks, rbraceChar ∉ tok.data)
    (h : anyTok toks (lowerL (pyStatesChars st)) = true) :
    anyTok toks (lowerL (pyStatesChars (st ++ ex))) = true := by
  rcases List.any_eq_true.mp h with ⟨tok, htok, hc⟩
  exact List.any_eq_true.mpr
    ⟨tok, htok, tok_lower_pyStates_mono tok st ex hst (hbr tok htok) hc⟩

theorem categoryReady_mono (name : String) (st ex : List (String × Rat))
    (hst : st ≠ []) (h : categoryReady name st = true) :
    categoryReady name (st ++ ex) = true := by
  simp only [categoryReady] at h ⊢
  by_cases h1 : (containsSub "engine".data (lowerL name.data) ||
      containsSub "motor".data (lowerL name.data)) = true
  · rw [if_pos h1] at h ⊢
    rw [Bool.and_eq_true] at h ⊢
    exact ⟨anyTok_pyStates_mono _ _ _ hst (by decide) h.1,
           anyTok_pyStates_mono _ _ _ hst (by decide) h.2⟩
  · rw [if_neg h1] at h ⊢
    by_cases h2 : (containsSub "pump".data (lowerL name.data) ||
        containsSub "hydraulic".data (lowerL name.data)) = true
    · rw [if_pos h2] at h ⊢
      rw [Bool.and_eq_true] at h ⊢
      exact ⟨anyTok_pyStates_mono _ _ _ hst (by decide) h.1,
             anyTok_pyStates_mono _ _ _ hst (by decide) h.2⟩
    · rw [if_neg h2] at h ⊢
      by_cases h3 : (containsSub "wind".data (lowerL name.data) ||
          containsSub "turbine".data (lowerL name.data)) = true
      · rw [if_pos h3] at h ⊢
        exact anyTok_pyStates_mono _ _ _ hst (by decide) h
      · rw [if_neg h3] at h ⊢
        by_cases h4 : containsSub "battery".data (lowerL name.data) = true
        · rw [if_pos h4] at h ⊢
          exact anyTok_pyStates_mono _ _ _ hst (by decide) h
        · rw [if_neg h4]

theorem componentReady_mono (name : String) (c c' : CompInfo)
    (hext : CompExtends c c') (h : componentReady name c = true) :
    componentReady name c' = true := by
  obtain ⟨⟨extra, hs⟩, hf⟩ := hext
  unfold componentReady at h ⊢
  split at h
  · cases h
  · split at h
    · cases h
    · rename_i hlen hfe
      have hst : c.states ≠ [] := by
        intro hnil
        rw [hnil] at hlen
        exact hlen (by simp)
      have hfne : c.faults ≠ [] := by
        intro hnil
        rw [hnil] at hfe
        exact hfe rfl
      have hf' : ¬(c'.faults.isEmpty = true) := by
        rcases List.exists_mem_of_ne_nil c.faults hfne with ⟨f, hfm⟩
        have hfm' : f ∈ c'.faults := hf f hfm
        cases hcc : c'.faults with
        | nil => rw [hcc] at hfm'; exact absurd hfm' (List.not_mem_nil f)
        | cons g t' => simp
      rw [if_neg (show ¬ c'.states.length < 3 by rw [hs, List.length_append]; omega)]
      rw [if_neg hf']
      rw [hs]
      exact categoryReady_mono name c.states extra hst h

/-- Pointwise transfer along a `Forall₂`. -/
theorem forall₂_transfer {α β : Type} {R : α → β → Prop} {P : α → Prop} {Q : β → Prop} :
    ∀ {l : List α} {l' : List β}, List.Forall₂ R l l' →
      (∀ x y, R x y → P x → Q y) → (∀ x ∈ l, P x) → ∀ y ∈ l', Q y := by
  intro l l' hf himp
  induction hf with
  | nil => exact fun _ y hy => absurd hy (List.not_mem_nil y)
  | cons hr hft ih =>
    intro hl y hy
    rcases List.mem_cons.mp hy with rfl | hy'
    · exact himp _ _ hr (hl _ (List.mem_cons_self _ _))
    · exact ih (fun x hx => hl x (List.mem_cons_of_mem _ hx)) y hy'

/-- A build goes through whenever its three guards hold. -/
theorem build_spec_builds {kb : KB} (h1 : kb.system_name ≠ "") (h2 : kb.components ≠ [])
    (h3 : buildFunctions kb ≠ []) :
    ∃ s, build_spec kb = some s ∧ s.functions = buildFunctions kb := by
  unfold build_spec mkLevelSpec
  rw [if_neg (by rintro (h | h); exacts [h1 h, h2 h]), if_neg h3, if_neg h3]
  exact ⟨_, rfl, rfl⟩

/-- Claim C6: readiness is monotone.  If every component of a knowledge
base passes the generic minimums (at least three recorded states, a
fault) and its category checks — i.e. `is_ready` holds against the
rebuilt spec — then extending components with further states and faults
never makes `is_ready` false: all checks are presence-based. -/
theorem C6_readiness_monotone (kb kb' : KB) (hext : KBExtends kb kb')
    (h : isReadyKB kb = true) : isReadyKB kb' = true := by
  obtain ⟨hname, hcomps⟩ := hext
  unfold isReadyKB is_ready at h ⊢
  split at h
  · cases h
  · rename_i s hb
    split at h
    · cases h
    · obtain ⟨hn, hc, hfn, _, _, _⟩ := build_spec_some_shape hb
      have hall : ∀ nc ∈ kb.components, componentReady nc.1 nc.2 = true :=
        List.all_eq_true.mp h
      have hall' : ∀ nc' ∈ kb'.components, componentReady nc'.1 nc'.2 = true := by
        refine forall₂_transfer hcomps ?_ hall
        intro nc nc' hr hp
        rw [hr.1]
        exact componentReady_mono nc.1 nc.2 nc'.2 hr.2 hp
      have hne : ∀ nc' ∈ kb'.components, nc'.2.states ≠ [] := by
        intro nc' hm
        have hr := hall' nc' hm
        unfold componentReady at hr
        by_cases hl : nc'.2.states.length < 3
        · rw [if_pos hl] at hr
          cases hr
        · intro hnil
          rw [hnil] at hl
          exact hl (by simp)
      have hc' : kb'.components ≠ [] := by
        intro hnil
        have hlen := List.Forall₂.length_eq hcomps
        rw [hnil, List.length_nil] at hlen
        exact hc (List.eq_nil_of_length_eq_zero hlen)
      have hfn' : buildFunctions kb' ≠ [] := by
        unfold buildFunctions
        cases hcc : kb'.components with
        | nil => exact absurd hcc hc'
        | cons nc t =>
          have hsome : ∃ fn, buildFnOf nc = some fn := by
            unfold buildFnOf
            rw [if_pos (Or.inl (hne nc (hcc ▸ List.mem_cons_self _ _)))]
            exact ⟨_, rfl⟩
          obtain ⟨fn, hb2⟩ := hsome
          simp [List.filterMap_cons, hb2]
      obtain ⟨s', hb', hsf'⟩ := build_spec_builds (hname ▸ hn) hc' hfn'
      rw [hb']
      show (if s'.functions = [] then false
            else kb'.components.all fun nc => componentReady nc.1 nc.2) = true
      rw [if_neg (by rw [hsf']; exact hfn')]
      exact List.all_eq_true.mpr hall'

/-- Claim C6, witness: a ready pump knowledge base stays ready after
adding a vibration state and a cavitation fault. -/
theorem C6_readiness_monotone_witness :
    KBExtends
        { system_name := "P"
          components := [("Pump",
            { states := [("pressure", 100), ("flow_rate", 10), ("temperature", 40)],
              faults := ["leak"] })] }
        { system_name := "P"
          components := [("Pump",
            { states := [("pressure", 100), ("flow_rate", 10), ("temperature", 40),
                         ("vibration", (1 : Rat) / 10)],
              faults := ["leak", "cavitation"] })] } ∧
    isReadyKB
        { system_name := "P"
          components := [("Pump",
            { states := [("pressure", 100), ("flow_rate", 10), ("temperature", 40)],
              faults := ["leak"] })] } = true ∧
    isReadyKB
        { system_name := "P"
          components := [("Pump",
            { states := [("pressure", 100), ("flow_rate", 10), ("temperature", 40),
                         ("vibration", (1 : Rat) / 10)],
              faults := ["leak", "cavitation"] })] } = true :=
  have hext : KBExtends
      { system_name := "P"
        components := [("Pump",
          { states := [("pressure", 100), ("flow_rate", 10), ("temperature", 40)],
            faults := ["leak"] })] }
      { system_name := "P"
        components := [("Pump",
          { states := [("pressure", 100), ("flow_rate", 10), ("temperature", 40),
                       ("vibration", (1 : Rat) / 10)],
            faults := ["leak", "cavitation"] })] } :=
    ⟨rfl, List.Forall₂.cons
      ⟨rfl, ⟨[("vibration", (1 : Rat) / 10)], rfl⟩, by decide⟩
      List.Forall₂.nil⟩
  have h1 : isReadyKB
      { system_name := "P"
        components := [("Pump",
          { states := [("pressure", 100), ("flow_rate", 10), ("temperature", 40)],
            faults := ["leak"] })] } = true := by decide
  ⟨hext, h1, C6_readiness_monotone _ _ hext h1⟩

end Fmd
